import Mathlib

set_option maxRecDepth 4000

/-!
Shallow embedding of the TokenDrop smart contract
(contracts/TokenDrop.algo.ts and contracts/types.algo.ts) and proofs about
its drop lifecycle, claim accounting and fee arithmetic.

Modelling conventions:
* All AVM uint64 values are Nat; arithmetic that the AVM would panic on
  (overflow past 2^64, underflow below 0, division by zero) is modelled by
  checked operations returning an error, since a panic aborts the whole call
  exactly like a failed assert.
* A failed assert / panic reverts the entire transaction group, so every
  public operation is a function from the pre-state to
  an Except value: an error result means no state change at all.
* Box maps are association lists; box reads of missing boxes fail
  (the AVM errors on reading an absent box), while box_del of a missing box
  is a no-op (box_del merely returns a flag and never panics).
* Addresses, asset ids, app ids and transaction ids are abstract Nat values.
* External ledger facts (other accounts being opted in to an asset, asset
  balances of other accounts, asset creators, and all NFD registry reads)
  are supplied by an environment record of oracle functions, read fresh at
  every use exactly as the contract issues fresh reads.
* The app account minimum balance is modelled from the fixed ARC-4 encoded
  box sizes: each box map has entries of one fixed size, so the minimum
  balance is a linear function of the number of entries plus 0.1 Algo per
  asset opt-in plus the 0.1 Algo account base.
-/

/-- The exclusive upper bound of AVM uint64 values. -/
def U64LIMIT : Nat := 2 ^ 64

/-- Checked uint64 addition: the AVM panics on overflow. -/
def addU (a b : Nat) : Except String Nat :=
  if a + b < U64LIMIT then Except.ok (a + b) else Except.error "uint64 overflow"

/-- Checked uint64 subtraction: the AVM panics on underflow. -/
def subU (a b : Nat) : Except String Nat :=
  if b ≤ a then Except.ok (a - b) else Except.error "uint64 underflow"

/-- Checked uint64 multiplication: the AVM panics on overflow. -/
def mulU (a b : Nat) : Except String Nat :=
  if a * b < U64LIMIT then Except.ok (a * b) else Except.error "uint64 overflow"

/-- Checked uint64 division: the AVM panics on division by zero. -/
def divU (a b : Nat) : Except String Nat :=
  if b = 0 then Except.error "division by zero" else Except.ok (a / b)

/-- Checked uint64 remainder: the AVM panics on division by zero. -/
def modU (a b : Nat) : Except String Nat :=
  if b = 0 then Except.error "division by zero" else Except.ok (a % b)

/-- An assert statement of the contract: continue if the condition holds,
otherwise fail the whole call with the given message. -/
def check (p : Prop) [Decidable p] (msg : String) : Except String Unit :=
  if p then Except.ok () else Except.error msg

/-- Association-list lookup, the model of reading a box map entry. -/
def alookup {κ ν : Type} [DecidableEq κ] : List (κ × ν) → κ → Option ν
  | [], _ => none
  | (k, v) :: rest, key => if k = key then some v else alookup rest key

/-- Remove every entry under a key, the model of box_del. -/
def aerase {κ ν : Type} [DecidableEq κ] : List (κ × ν) → κ → List (κ × ν)
  | [], _ => []
  | (k, v) :: rest, key =>
      if k = key then aerase rest key else (k, v) :: aerase rest key

/-- Set the value stored under a key, the model of writing a box map entry. -/
def ainsert {κ ν : Type} [DecidableEq κ] (l : List (κ × ν)) (key : κ) (v : ν) :
    List (κ × ν) :=
  (key, v) :: aerase l key

/- Gating type constants from contracts/types.algo.ts. -/

def GATING_TYPE_NONE : Nat := 0
def GATING_TYPE_ASSETS_CREATED_BY : Nat := 1
def GATING_TYPE_ASSET_ID : Nat := 2
def GATING_TYPE_CREATED_BY_NFD_ADDRESSES : Nat := 3
def GATING_TYPE_SEGMENT_OF_NFD : Nat := 4
def GATING_TYPE_NFD_W_VERIFIED_TWITTER : Nat := 5
def GATING_TYPE_NFD_W_VERIFIED_BLUESKY : Nat := 6
def GATING_TYPE_NFD_HOLDING_AGE : Nat := 7
def GATING_TYPE_CONST_MAX : Nat := 7

/-- TokenDropConfig from contracts/types.algo.ts.  The 4-slot static array
entryGatingAssets is flattened into four numbered fields. -/
structure TokenDropConfig where
  Token : Nat
  AmountPerClaim : Nat
  AirdropEndTime : Nat
  entryGatingType : Nat
  entryGatingAddress : Nat
  entryGatingAssets0 : Nat
  entryGatingAssets1 : Nat
  entryGatingAssets2 : Nat
  entryGatingAssets3 : Nat
  gatingAssetMinBalance : Nat
deriving DecidableEq, Repr

/-- TokenDropInfo from contracts/types.algo.ts. -/
structure TokenDropInfo where
  DropId : Nat
  DropCreator : Nat
  AmountRemaining : Nat
  MaxClaims : Nat
  NumClaims : Nat
  Config : TokenDropConfig
deriving DecidableEq, Repr

/-- ClaimedInfo from contracts/types.algo.ts: the claim transaction id. -/
structure ClaimedInfo where
  TxnId : Nat
deriving DecidableEq, Repr

/-- The contract global state plus its box maps plus the app account asset
holdings (which several branches of the contract read and update).
The claimedMap key is the AddressClaimKey pair (token drop id, address). -/
structure GlobalState where
  nfdRegistryAppId : Nat
  maintainerAddress : Nat
  creationFeeAmount : Nat
  perClaimFeeAmount : Nat
  totalClaims : Nat
  lastDropId : Nat
  allDrops : List (Nat × TokenDropInfo)
  dropForToken : List (Nat × Nat)
  claimedMap : List ((Nat × Nat) × ClaimedInfo)
  appOptedInAssets : List Nat
  appAssetBalance : List (Nat × Nat)
deriving DecidableEq, Repr

/-- Ledger facts outside the contract state, read through fresh oracle
calls: the current block time, the fee sink, fixed addresses, the calling
transaction id, other accounts and assets, and the NFD registry reads. -/
structure Env where
  latestTimestamp : Nat
  feeSink : Nat
  appAddress : Nat
  appCreator : Nat
  zeroAddress : Nat
  txnId : Nat
  accountAssetBalance : Nat → Nat → Nat
  accountOptedIn : Nat → Nat → Bool
  assetCreator : Nat → Nat
  nfdValid : Nat → Bool
  nfdOwner : Nat → Nat
  nfdParentAppId : Nat → Nat
  nfdCaAlgoAddrs : Nat → List Nat
  nfdMajorVersionPre3 : Nat → Bool
  nfdSellAmount : Nat → Nat
  nfdExpirationTime : Nat → Nat
  nfdTimePurchased : Nat → Nat
  nfdHasTwitter : Nat → Bool
  nfdHasBluesky : Nat → Bool

/-- A payment transaction accompanying an app call. -/
structure PayTxn where
  sender : Nat
  receiver : Nat
  amount : Nat
deriving DecidableEq, Repr

/-- An asset transfer transaction accompanying an app call. -/
structure AssetTransferTxn where
  sender : Nat
  assetReceiver : Nat
  xferAsset : Nat
  assetAmount : Nat
deriving DecidableEq, Repr

/-- An inner payment issued by the contract. -/
structure Pay where
  receiver : Nat
  amount : Nat
deriving DecidableEq, Repr

/-- An inner asset transfer issued by the contract. -/
structure Axfer where
  asset : Nat
  receiver : Nat
  amount : Nat
deriving DecidableEq, Repr

/-- The inner transactions emitted by one successful operation, in order. -/
structure Effects where
  pays : List Pay
  axfers : List Axfer
deriving DecidableEq, Repr

/-- costForBoxStorage from TokenDrop.algo.ts: 2500 per box plus 400 per byte. -/
def costForBoxStorage (totalNumBytes : Nat) : Nat :=
  2500 + totalNumBytes * 400

/- ARC-4 encoded byte lengths of the box key and value types.
TokenDropId and AssetID are uint64 (8 bytes); an Address is 32 bytes;
TokenDropConfig is 8+8+8+1+32+32+8 = 97 bytes; TokenDropInfo is
8+32+8+8+8+97 = 161 bytes; AddressClaimKey is 8+32 = 40 bytes;
ClaimedInfo is a 32-byte transaction id. -/

def lenTokenDropId : Nat := 8
def lenAssetID : Nat := 8
def lenTokenDropInfo : Nat := 161
def lenAddressClaimKey : Nat := 40
def lenClaimedInfo : Nat := 32

/-- Minimum balance reserved per asset opt-in. -/
def ASSET_OPTIN_MBR : Nat := 100000

/-- Rent of one allDrops box (key prefix byte d plus key plus value). -/
def dropBoxCost : Nat := costForBoxStorage (1 + lenTokenDropId + lenTokenDropInfo)

/-- Rent of one dropForToken box (three byte prefix tok plus key plus value). -/
def tokBoxCost : Nat := costForBoxStorage (3 + lenAssetID + lenTokenDropId)

/-- getPerClaimerMbrCost from TokenDrop.algo.ts: rent of one claimedMap box. -/
def getPerClaimerMbrCost : Nat :=
  costForBoxStorage (1 + lenAddressClaimKey + lenClaimedInfo)

/-- getDropCreateCost from TokenDrop.algo.ts: the creation fee plus the rent
of the allDrops box and of the dropForToken box. -/
def getDropCreateCost (st : GlobalState) : Nat :=
  st.creationFeeAmount
    + costForBoxStorage (1 + lenTokenDropId + lenTokenDropInfo)
    + costForBoxStorage (3 + lenAssetID + lenTokenDropId)

/-- The app account minimum balance: account base, per-asset opt-in reserve,
and the rent of every live box.  Every box of a given map has the same fixed
size, so the box rent is linear in the number of entries. -/
def minBalance (st : GlobalState) : Nat :=
  100000 + ASSET_OPTIN_MBR * st.appOptedInAssets.length
    + dropBoxCost * st.allDrops.length
    + tokBoxCost * st.dropForToken.length
    + getPerClaimerMbrCost * st.claimedMap.length

/-- isDropExpiredOrEmpty from TokenDrop.algo.ts. -/
def isDropExpiredOrEmpty (env : Env) (dropInfo : TokenDropInfo) : Bool :=
  dropInfo.AmountRemaining == 0
    || decide (dropInfo.Config.AirdropEndTime < env.latestTimestamp)

/-- createApplication from TokenDrop.algo.ts: the initial global state. -/
def createApplication (nfdRegistryId maintainerAddress : Nat) : GlobalState :=
  { nfdRegistryAppId := nfdRegistryId
    maintainerAddress := maintainerAddress
    creationFeeAmount := 10000000
    perClaimFeeAmount := 100000
    totalClaims := 0
    lastDropId := 0
    allDrops := []
    dropForToken := []
    claimedMap := []
    appOptedInAssets := []
    appAssetBalance := [] }

/-- changeFees from TokenDrop.algo.ts. -/
def changeFees (env : Env) (sender : Nat) (st : GlobalState)
    (creationFee perClaimFee : Nat) : Except String GlobalState := do
  check (sender = env.appCreator) "Only the creator can call"
  check (2000000 < creationFee) "fee must be at least 2 algo"
  check (creationFee % 2 = 0) "fee must be even amount"
  let doubledMbr ← mulU getPerClaimerMbrCost 2
  check (doubledMbr ≤ perClaimFee) "per-claim fee must be at least double mbr cost"
  Except.ok { st with creationFeeAmount := creationFee, perClaimFeeAmount := perClaimFee }

/-- changeMaintainer from TokenDrop.algo.ts. -/
def changeMaintainer (env : Env) (sender : Nat) (st : GlobalState)
    (newMaintainer : Nat) : Except String GlobalState := do
  check (sender = env.appCreator) "Only the creator can call"
  Except.ok { st with maintainerAddress := newMaintainer }

/-- optinAsset from TokenDrop.algo.ts: requires an exact payment of the asset
opt-in minimum balance; refunds it whole when already opted in, otherwise
opts the app account in to the asset. -/
def optinAsset (env : Env) (sender : Nat) (st : GlobalState)
    (mbrPayment : PayTxn) (assetId : Nat) : Except String (GlobalState × Effects) := do
  check (mbrPayment.receiver = env.appAddress) "payment receiver mismatch"
  check (mbrPayment.amount = ASSET_OPTIN_MBR) "payment amount mismatch"
  if st.appOptedInAssets.contains assetId then
    Except.ok (st, ⟨[⟨sender, ASSET_OPTIN_MBR⟩], []⟩)
  else
    Except.ok ({ st with
                  appOptedInAssets := st.appOptedInAssets ++ [assetId]
                  appAssetBalance := ainsert st.appAssetBalance assetId 0 },
               ⟨[], [⟨assetId, env.appAddress, 0⟩]⟩)

/-- getDropInfo from TokenDrop.algo.ts: reading a missing box fails. -/
def getDropInfo (st : GlobalState) (tokenDropId : Nat) :
    Except String TokenDropInfo :=
  match alookup st.allDrops tokenDropId with
  | none => Except.error "box not found"
  | some info => Except.ok info

/-- isNfdForSale from TokenDrop.algo.ts. -/
def isNfdForSale (env : Env) (nfdAppId : Nat) : Bool :=
  env.nfdSellAmount nfdAppId != 0

/-- isNfdExpired from TokenDrop.algo.ts: a zero expiration time means a
lifetime registration. -/
def isNfdExpired (env : Env) (nfdAppId : Nat) : Bool :=
  let expTime := env.nfdExpirationTime nfdAppId
  if expTime == 0 then false else decide (expTime < env.latestTimestamp)

/-- isAddressInNFDCAAlgoList from TokenDrop.algo.ts: scan the packed list of
linked 32-byte addresses; an all-zero address entry never matches. -/
def isAddressInNFDCAAlgoList (env : Env) (nfdAppId addrToFind : Nat) : Bool :=
  (env.nfdCaAlgoAddrs nfdAppId).any fun addr =>
    addr != env.zeroAddress && addr == addrToFind

/-- checkValidV3NfdAndOwnedByClaimer from TokenDrop.algo.ts. -/
def checkValidV3NfdAndOwnedByClaimer (env : Env) (valueToVerify claimer : Nat) :
    Except String Unit := do
  check (env.nfdValid valueToVerify) "provided NFD must be valid"
  check (¬ env.nfdMajorVersionPre3 valueToVerify) "NFD must be V3 or later"
  check (¬ isNfdForSale env valueToVerify) "NFD must not be for sale"
  check (¬ isNfdExpired env valueToVerify) "NFD must not be expired"
  check (env.nfdOwner valueToVerify = claimer)
    "provided nfd for entry is not owned by the claimer"

/-- checkGatingInfo from TokenDrop.algo.ts, run at drop creation: the gating
tag must be in range, NFD-based tags must reference a valid NFD, and the
holding-age tag needs a positive day count. -/
def checkGatingInfo (env : Env) (cfg : TokenDropConfig) : Except String Unit := do
  check (cfg.entryGatingType ≤ GATING_TYPE_CONST_MAX) "gating type out of range"
  if cfg.entryGatingType = GATING_TYPE_CREATED_BY_NFD_ADDRESSES ∨
      cfg.entryGatingType = GATING_TYPE_SEGMENT_OF_NFD then
    check (env.nfdValid cfg.entryGatingAssets0)
      "provided NFD App id for gating must be valid NFD"
  else Except.ok ()
  if cfg.entryGatingType = GATING_TYPE_NFD_HOLDING_AGE then
    check (0 < cfg.gatingAssetMinBalance)
      "asset min balance - used as nfd holding age - must be greater than 0"
  else Except.ok ()

/-- doesClaimAccountMeetGating from TokenDrop.algo.ts, run at claim time.
Follows the source structure: an early return for no gating, then a chain of
independent if blocks per gating type, each reading external state fresh. -/
def doesClaimAccountMeetGating (env : Env) (claimer : Nat) (st : GlobalState)
    (tokenDropId valueToVerify : Nat) : Except String Unit := do
  match alookup st.allDrops tokenDropId with
  | none => Except.error "box not found"
  | some tokenDropInfo => do
    let cfg := tokenDropInfo.Config
    if cfg.entryGatingType = GATING_TYPE_NONE then
      Except.ok ()
    else do
      if cfg.entryGatingType = GATING_TYPE_ASSETS_CREATED_BY ∨
          cfg.entryGatingType = GATING_TYPE_ASSET_ID ∨
          cfg.entryGatingType = GATING_TYPE_CREATED_BY_NFD_ADDRESSES then do
        check (valueToVerify ≠ 0) "gating asset must be specified"
        let balRequired :=
          if cfg.gatingAssetMinBalance = 0 then 1 else cfg.gatingAssetMinBalance
        check (balRequired ≤ env.accountAssetBalance claimer valueToVerify)
          "must have required minimum balance of validator defined token to add stake"
      else Except.ok ()
      if cfg.entryGatingType = GATING_TYPE_ASSETS_CREATED_BY then
        check (env.assetCreator valueToVerify = cfg.entryGatingAddress)
          "specified asset must be created by creator that the validator defined as a requirement to stake"
      else Except.ok ()
      if cfg.entryGatingType = GATING_TYPE_ASSET_ID then
        check (valueToVerify = cfg.entryGatingAssets0 ∨
            valueToVerify = cfg.entryGatingAssets1 ∨
            valueToVerify = cfg.entryGatingAssets2 ∨
            valueToVerify = cfg.entryGatingAssets3)
          "specified asset must be identical to the asset id defined as a requirement to stake"
      else Except.ok ()
      if cfg.entryGatingType = GATING_TYPE_CREATED_BY_NFD_ADDRESSES then
        check (isAddressInNFDCAAlgoList env cfg.entryGatingAssets0
            (env.assetCreator valueToVerify))
          "specified asset must be created by creator that is one of the linked addresses in an nfd"
      else Except.ok ()
      if cfg.entryGatingType = GATING_TYPE_SEGMENT_OF_NFD then do
        check (env.nfdValid valueToVerify) "provided NFD must be valid"
        check (env.nfdOwner valueToVerify = claimer ∨
            isAddressInNFDCAAlgoList env valueToVerify claimer = true)
          "provided nfd for entry is not owned or linked to the claimer"
        check (env.nfdParentAppId valueToVerify = cfg.entryGatingAssets0)
          "specified nfd must be a segment of the nfd the validator specified as a requirement"
      else Except.ok ()
      if cfg.entryGatingType = GATING_TYPE_NFD_W_VERIFIED_TWITTER then do
        checkValidV3NfdAndOwnedByClaimer env valueToVerify claimer
        check (env.nfdHasTwitter valueToVerify) "must have verified twitter"
      else Except.ok ()
      if cfg.entryGatingType = GATING_TYPE_NFD_W_VERIFIED_BLUESKY then do
        checkValidV3NfdAndOwnedByClaimer env valueToVerify claimer
        check (env.nfdHasBluesky valueToVerify) "must have verified bluesky"
      else Except.ok ()
      if cfg.entryGatingType = GATING_TYPE_NFD_HOLDING_AGE then do
        checkValidV3NfdAndOwnedByClaimer env valueToVerify claimer
        let ageSeconds ← mulU cfg.gatingAssetMinBalance 86400
        let heldUntil ← addU (env.nfdTimePurchased valueToVerify) ageSeconds
        check (heldUntil ≤ env.latestTimestamp) "nfd must be held for min num of days"
      else Except.ok ()

/-- sendAssetTransfer issued by the contract: fails when the app balance is
short or the receiving account is not opted in to the asset, since a failed
inner transaction aborts the whole call. -/
def sendAssetTransfer (env : Env) (st : GlobalState) (eff : Effects)
    (asset receiver amount : Nat) : Except String (GlobalState × Effects) := do
  check (env.accountOptedIn receiver asset) "inner axfer receiver not opted in"
  let newBal ← subU ((alookup st.appAssetBalance asset).getD 0) amount
  Except.ok ({ st with appAssetBalance := ainsert st.appAssetBalance asset newBal },
             { eff with axfers := eff.axfers ++ [⟨asset, receiver, amount⟩] })

/-- sendPayment issued by the contract (the app algo balance itself is not
tracked; payments are recorded as effects). -/
def sendPayment (eff : Effects) (receiver amount : Nat) : Effects :=
  { eff with pays := eff.pays ++ [⟨receiver, amount⟩] }

/-- sendTokensFromDrop from TokenDrop.algo.ts: transfer tokens out of the
drop, then rewrite the drop box with the decreased remaining amount and the
incremented claim count. -/
def sendTokensFromDrop (env : Env) (st : GlobalState) (eff : Effects)
    (dropInfo : TokenDropInfo) (receiver amountToSend : Nat) :
    Except String (GlobalState × Effects × Nat) := do
  let (st1, eff1) ← sendAssetTransfer env st eff dropInfo.Config.Token receiver amountToSend
  let remaining ← subU dropInfo.AmountRemaining amountToSend
  match alookup st1.allDrops dropInfo.DropId with
  | none => Except.error "box not found"
  | some cur => do
    let numClaims ← addU cur.NumClaims 1
    let updated := { cur with AmountRemaining := remaining, NumClaims := numClaims }
    Except.ok ({ st1 with allDrops := ainsert st1.allDrops dropInfo.DropId updated },
               eff1, remaining)

/-- refundDropCreatorRemainingTokens from TokenDrop.algo.ts: send any
remaining tokens back to the drop creator, then opt out of the asset when the
app balance of it has reached zero. -/
def refundDropCreatorRemainingTokens (env : Env) (st : GlobalState) (eff : Effects)
    (tokenDropId : Nat) : Except String (GlobalState × Effects) := do
  match alookup st.allDrops tokenDropId with
  | none => Except.error "box not found"
  | some dropInfo => do
    let refunded ←
      if 0 < dropInfo.AmountRemaining then do
        let (st1, eff1, _) ←
          sendTokensFromDrop env st eff dropInfo dropInfo.DropCreator dropInfo.AmountRemaining
        Except.ok (st1, eff1)
      else Except.ok (st, eff)
    let st2 := refunded.1
    let eff2 := refunded.2
    if (alookup st2.appAssetBalance dropInfo.Config.Token).getD 0 = 0 then
      Except.ok ({ st2 with
                    appOptedInAssets := st2.appOptedInAssets.erase dropInfo.Config.Token
                    appAssetBalance := aerase st2.appAssetBalance dropInfo.Config.Token },
                 { eff2 with axfers := eff2.axfers ++ [⟨dropInfo.Config.Token, env.appAddress, 0⟩] })
    else Except.ok (st2, eff2)

/-- removeFromDrops from TokenDrop.algo.ts: delete the dropForToken index
entry and then the drop record box. -/
def removeFromDrops (st : GlobalState) (tokenDropId : Nat) :
    Except String GlobalState :=
  match alookup st.allDrops tokenDropId with
  | none => Except.error "box not found"
  | some dropInfo =>
      Except.ok { st with
                   dropForToken := aerase st.dropForToken dropInfo.Config.Token
                   allDrops := aerase st.allDrops tokenDropId }

/-- cleanupDrop from TokenDrop.algo.ts: a non-creator caller needs the drop
to be expired or empty; refund the remaining tokens, delete both registry
boxes, and pay the freed minimum balance to the drop creator. -/
def cleanupDrop (env : Env) (sender : Nat) (st : GlobalState) (eff : Effects)
    (tokenDropId : Nat) : Except String (GlobalState × Effects) := do
  match alookup st.allDrops tokenDropId with
  | none => Except.error "box not found"
  | some dropInfo => do
    if sender ≠ dropInfo.DropCreator then
      check (isDropExpiredOrEmpty env dropInfo) "drop MUST be expired or empty"
    else Except.ok ()
    let preMbr := minBalance st
    let (st1, eff1) ← refundDropCreatorRemainingTokens env st eff tokenDropId
    let st2 ← removeFromDrops st1 tokenDropId
    let mbrRefund ← subU preMbr (minBalance st2)
    Except.ok (st2, sendPayment eff1 dropInfo.DropCreator mbrRefund)

/-- cancelDrop from TokenDrop.algo.ts: only the drop creator may cancel. -/
def cancelDrop (env : Env) (sender : Nat) (st : GlobalState) (tokenDropId : Nat) :
    Except String (GlobalState × Effects) := do
  match alookup st.allDrops tokenDropId with
  | none => Except.error "box not found"
  | some dropInfo => do
    check (sender = dropInfo.DropCreator) "only drop creator can cancel a drop"
    cleanupDrop env sender st ⟨[], []⟩ tokenDropId

/-- claimClaimerBoxCost from TokenDrop.algo.ts: once the drop is expired or
empty, anyone may delete one claim receipt box and have the freed rent paid
to a chosen receiver.  Deleting an absent box is a no-op, so the refund for
an address that never claimed is zero. -/
def claimClaimerBoxCost (env : Env) (st : GlobalState)
    (tokenDropId claimerAddress receiver : Nat) :
    Except String (GlobalState × Effects) := do
  match alookup st.allDrops tokenDropId with
  | none => Except.error "box not found"
  | some dropInfo => do
    check (isDropExpiredOrEmpty env dropInfo) "drop MUST be expired or empty"
    let preMbr := minBalance st
    let st1 := { st with claimedMap := aerase st.claimedMap (tokenDropId, claimerAddress) }
    let mbrRefund ← subU preMbr (minBalance st1)
    Except.ok (st1, (⟨[⟨receiver, mbrRefund⟩], []⟩ : Effects))

/-- claimDrop from TokenDrop.algo.ts.  The caller must not be the creator,
the drop must be live, the claimant opted in and not yet claimed, gating must
pass, and the payment must equal the per-claim fee exactly; then the fee is
split, the receipt recorded, the counters updated and the tokens sent. -/
def claimDrop (env : Env) (sender : Nat) (st : GlobalState)
    (feeAndMbrPayment : PayTxn) (tokenDropId valueToVerify : Nat) :
    Except String (GlobalState × Effects) := do
  match alookup st.allDrops tokenDropId with
  | none => Except.error "box not found"
  | some dropInfo => do
    check (sender ≠ dropInfo.DropCreator) "drop creator cannot claim"
    check (¬ isDropExpiredOrEmpty env dropInfo) "airdrop has ended or out of tokens"
    check (env.accountOptedIn sender dropInfo.Config.Token)
      "claimant must already be opted-in to token"
    check (alookup st.claimedMap (tokenDropId, sender) = none) "already claimed"
    doesClaimAccountMeetGating env sender st tokenDropId valueToVerify
    let perClaimerFee := st.perClaimFeeAmount
    let mbrCost := getPerClaimerMbrCost
    let doubledMbr ← mulU mbrCost 2
    check (doubledMbr ≤ perClaimerFee) "per-claim fee too low"
    check (feeAndMbrPayment.receiver = env.appAddress) "payment receiver mismatch"
    check (feeAndMbrPayment.sender = sender) "payment sender mismatch"
    check (feeAndMbrPayment.amount = perClaimerFee) "payment amount mismatch"
    let scaled ← mulU perClaimerFee 500
    let maintainerPortion := scaled / 1000
    let eff1 := sendPayment ⟨[], []⟩ st.maintainerAddress maintainerPortion
    let afterMaintainer ← subU perClaimerFee maintainerPortion
    let feeSinkPortion ← subU afterMaintainer mbrCost
    let eff2 := sendPayment eff1 env.feeSink feeSinkPortion
    let st1 := { st with
                  claimedMap := ainsert st.claimedMap (tokenDropId, sender) ⟨env.txnId⟩ }
    let newTotal ← addU st1.totalClaims 1
    let st2 := { st1 with totalClaims := newTotal }
    let (st3, eff3, _) ←
      sendTokensFromDrop env st2 eff2 dropInfo sender dropInfo.Config.AmountPerClaim
    Except.ok (st3, eff3)

/-- createDrop from TokenDrop.algo.ts.  The incoming asset transfer is
credited to the app account first (it precedes the call in the group); then
the config is validated, a still-indexed prior drop for the token must be
expired-or-empty and is torn down, the new drop is allocated and indexed,
the payment must cover the creation cost (excess refunded), and the creation
fee is split between the maintainer and the fee sink. -/
def createDrop (env : Env) (sender : Nat) (st : GlobalState)
    (feeAndMbrPayment : PayTxn) (assetTxn : AssetTransferTxn)
    (cfg : TokenDropConfig) : Except String (GlobalState × Effects × Nat) := do
  check (assetTxn.assetReceiver = env.appAddress) "axfer receiver mismatch"
  let credited := (alookup st.appAssetBalance assetTxn.xferAsset).getD 0 + assetTxn.assetAmount
  let st := { st with appAssetBalance := ainsert st.appAssetBalance assetTxn.xferAsset credited }
  check (0 < assetTxn.assetAmount) "must have a positive amount"
  check (assetTxn.xferAsset = cfg.Token) "asset sent must be same as asset specified for drops"
  check (st.appOptedInAssets.contains assetTxn.xferAsset) "must opt-in contract first"
  check (cfg.Token = assetTxn.xferAsset) "token must match asset being transferred"
  check (cfg.AmountPerClaim ≤ assetTxn.assetAmount)
    "amount per claim must be at least amount transferred"
  let remMod ← modU assetTxn.assetAmount cfg.AmountPerClaim
  check (remMod = 0) "amount must be divisible by amount per claim"
  let dayAhead ← addU env.latestTimestamp 86400
  check (dayAhead < cfg.AirdropEndTime)
    "airdrop end time must be at least 1 day into the future"
  let weekAhead ← addU env.latestTimestamp (3600 + 86400 * 7)
  check (cfg.AirdropEndTime ≤ weekAhead) "airdrop cannot last more than 1 week"
  let cleaned ←
    match alookup st.dropForToken cfg.Token with
    | some oldId =>
      match alookup st.allDrops oldId with
      | none => Except.error "box not found"
      | some oldInfo => do
        check (isDropExpiredOrEmpty env oldInfo)
          "existing drop must be expired or have no remaining tokens"
        cleanupDrop env sender st ⟨[], []⟩ oldId
    | none => Except.ok (st, (⟨[], []⟩ : Effects))
  let st := cleaned.1
  let eff := cleaned.2
  checkGatingInfo env cfg
  let newLastId ← addU st.lastDropId 1
  let st := { st with lastDropId := newLastId }
  let maxClaims ← divU assetTxn.assetAmount cfg.AmountPerClaim
  let dropInfo : TokenDropInfo :=
    { DropId := newLastId
      DropCreator := assetTxn.sender
      AmountRemaining := assetTxn.assetAmount
      MaxClaims := maxClaims
      NumClaims := 0
      Config := cfg }
  let st := { st with
               allDrops := ainsert st.allDrops newLastId dropInfo
               dropForToken := ainsert st.dropForToken cfg.Token newLastId }
  check (feeAndMbrPayment.receiver = env.appAddress) "payment receiver mismatch"
  let mbrCosts := getDropCreateCost st
  check (mbrCosts ≤ feeAndMbrPayment.amount) "must pay at least MBR costs"
  let eff := if mbrCosts < feeAndMbrPayment.amount then
      sendPayment eff feeAndMbrPayment.sender (feeAndMbrPayment.amount - mbrCosts)
    else eff
  let eff := sendPayment eff st.maintainerAddress (st.creationFeeAmount / 2)
  let eff := sendPayment eff env.feeSink (st.creationFeeAmount / 2)
  Except.ok (st, eff, newLastId)

/-- The drop accounting invariant of one drop record: the remaining amount
is exactly the unclaimed slots times the per-claim amount. -/
def dropAccounting (d : TokenDropInfo) : Prop :=
  d.AmountRemaining = (d.MaxClaims - d.NumClaims) * d.Config.AmountPerClaim

/-- Every drop record in the registry satisfies the accounting invariant. -/
def allDropsAccounting (st : GlobalState) : Prop :=
  ∀ p ∈ st.allDrops, dropAccounting p.2

/-- Structural registry invariant: a drop record is stored under its own
drop id.  Established by createDrop, which stores each new record under the
id it writes into the record. -/
def WellKeyed (st : GlobalState) : Prop :=
  ∀ p ∈ st.allDrops, p.2.DropId = p.1

/- Concrete fixtures used by witnesses and counterexamples. -/

/-- A concrete environment: time 1000, gating oracles all trivial, every
external account opted in to every asset. -/
def env0 : Env :=
  { latestTimestamp := 1000, feeSink := 2, appAddress := 3, appCreator := 4,
    zeroAddress := 0, txnId := 99,
    accountAssetBalance := fun _ _ => 0,
    accountOptedIn := fun _ _ => true,
    assetCreator := fun _ => 0,
    nfdValid := fun _ => false, nfdOwner := fun _ => 0, nfdParentAppId := fun _ => 0,
    nfdCaAlgoAddrs := fun _ => [], nfdMajorVersionPre3 := fun _ => false,
    nfdSellAmount := fun _ => 0, nfdExpirationTime := fun _ => 0,
    nfdTimePurchased := fun _ => 0, nfdHasTwitter := fun _ => false,
    nfdHasBluesky := fun _ => false }

/-- The same environment at a later block time, past the fixture drop expiry. -/
def envLate : Env := { env0 with latestTimestamp := 2000000 }

/-- An ungated config for token 5, 1000 base units per claim. -/
def cfg0 : TokenDropConfig :=
  { Token := 5, AmountPerClaim := 1000, AirdropEndTime := 999999,
    entryGatingType := 0, entryGatingAddress := 0,
    entryGatingAssets0 := 0, entryGatingAssets1 := 0, entryGatingAssets2 := 0,
    entryGatingAssets3 := 0, gatingAssetMinBalance := 0 }

/-- A live drop of 4000 units of token 5 by creator 42. -/
def drop0 : TokenDropInfo :=
  { DropId := 1, DropCreator := 42, AmountRemaining := 4000, MaxClaims := 4,
    NumClaims := 0, Config := cfg0 }

/-- A state holding exactly the fixture drop, with default fees. -/
def st0 : GlobalState :=
  { nfdRegistryAppId := 7, maintainerAddress := 8, creationFeeAmount := 10000000,
    perClaimFeeAmount := 100000, totalClaims := 0, lastDropId := 1,
    allDrops := [(1, drop0)], dropForToken := [(5, 1)], claimedMap := [],
    appOptedInAssets := [5], appAssetBalance := [(5, 4000)] }

/-- The exact per-claim fee payment from claimant 77. -/
def pay0 : PayTxn := { sender := 77, receiver := 3, amount := 100000 }

/-- The fixture drop after one successful claim. -/
def drop1 : TokenDropInfo := { drop0 with AmountRemaining := 3000, NumClaims := 1 }

/-- The fixture state after claimant 77 claims drop 1. -/
def st1 : GlobalState :=
  { st0 with
    totalClaims := 1
    allDrops := [(1, drop1)]
    claimedMap := [((1, 77), ⟨99⟩)]
    appAssetBalance := [(5, 3000)] }

/-- Effects of that claim: half fee to maintainer 8, remainder minus rent to
fee sink 2, one thousand units of token 5 to claimant 77. -/
def eff1 : Effects := ⟨[⟨8, 50000⟩, ⟨2, 18300⟩], [⟨5, 77, 1000⟩]⟩

/-- A replacement config with an expiry valid at the later block time. -/
def cfg1 : TokenDropConfig := { cfg0 with AirdropEndTime := 2086401 }

/-- The funding transfer of the replacement drop: 2000 units from creator 43. -/
def ax1 : AssetTransferTxn :=
  { sender := 43, assetReceiver := 3, xferAsset := 5, assetAmount := 2000 }

/-- A creation payment 100 microAlgo above the required creation cost. -/
def pay1 : PayTxn := { sender := 43, receiver := 3, amount := 10080700 }

/-- The replacement drop installed by the fixture createDrop run. -/
def dropC : TokenDropInfo :=
  { DropId := 2, DropCreator := 43, AmountRemaining := 2000, MaxClaims := 2,
    NumClaims := 0, Config := cfg1 }

/-- The state after the fixture createDrop run tears down drop 1 and
installs drop 2. -/
def stC : GlobalState :=
  { st0 with
    lastDropId := 2
    allDrops := [(2, dropC)]
    dropForToken := [(5, 2)]
    appAssetBalance := [(5, 2000)] }

/-- Effects of that creation: old drop teardown (token refund and freed rent
to 42), excess payment refund to 43, fee split to maintainer and fee sink. -/
def effC : Effects :=
  ⟨[⟨42, 80600⟩, ⟨43, 100⟩, ⟨8, 5000000⟩, ⟨2, 5000000⟩], [⟨5, 42, 4000⟩]⟩

/-- The state after creator 42 cancels drop 1: all boxes gone, asset opted
out. -/
def stCl : GlobalState :=
  { st0 with
    allDrops := []
    dropForToken := []
    appOptedInAssets := []
    appAssetBalance := [] }

/-- Effects of that cancellation: the full remaining 4000 units and the
whole freed minimum balance go to creator 42, plus the opt-out transfer. -/
def effCl : Effects := ⟨[⟨42, 180600⟩], [⟨5, 42, 4000⟩, ⟨5, 3, 0⟩]⟩

/-- The fixture state with an odd per-claim fee, reachable via changeFees. -/
def stOdd : GlobalState := { st0 with perClaimFeeAmount := 63401 }

/-- The exact odd fee payment. -/
def payOdd : PayTxn := { sender := 77, receiver := 3, amount := 63401 }

/-- The post-claim state of the odd-fee run. -/
def stOddAfter : GlobalState :=
  { stOdd with
    totalClaims := 1
    allDrops := [(1, drop1)]
    claimedMap := [((1, 77), ⟨99⟩)]
    appAssetBalance := [(5, 3000)] }

/-- Effects of the odd-fee claim: 31700 to the maintainer, 1 to the fee
sink, leaving exactly the 31700 receipt rent in the contract. -/
def effOdd : Effects := ⟨[⟨8, 31700⟩, ⟨2, 1⟩], [⟨5, 77, 1000⟩]⟩

/-- The fixture state with a per-claim fee one microAlgo below twice the
per-receipt rent (not reachable through changeFees, which is the point:
claimDrop still re-checks it). -/
def stBadFee : GlobalState := { st0 with perClaimFeeAmount := 63399 }

/-- The exact payment matching the too-low fee. -/
def payBad : PayTxn := { sender := 77, receiver := 3, amount := 63399 }

/-- The fixture state in which address 77 already holds a claim receipt. -/
def stClaimed : GlobalState := { st0 with claimedMap := [((1, 77), ⟨55⟩)] }

/-! Inversion helpers for the Except monad and the checked operations. -/

theorem check_eq_ok {p : Prop} [Decidable p] {msg : String} {u : Unit} :
    check p msg = Except.ok u ↔ p := by
  unfold check
  split <;> simp_all

theorem bindE_ok {α β : Type} {m : Except String α} {f : α → Except String β} {b : β} :
    m >>= f = Except.ok b ↔ ∃ a, m = Except.ok a ∧ f a = Except.ok b := by
  cases m <;> simp [Bind.bind, Except.bind]

theorem exbind_ok {α β : Type} {m : Except String α} {f : α → Except String β} {b : β} :
    Except.bind m f = Except.ok b ↔ ∃ a, m = Except.ok a ∧ f a = Except.ok b := by
  cases m <;> simp [Except.bind]

theorem addU_ok {a b c : Nat} : addU a b = Except.ok c ↔ a + b < U64LIMIT ∧ c = a + b := by
  unfold addU
  split <;> simp_all [eq_comm]

theorem subU_ok {a b c : Nat} : subU a b = Except.ok c ↔ b ≤ a ∧ c = a - b := by
  unfold subU
  split <;> simp_all [eq_comm]

theorem mulU_ok {a b c : Nat} : mulU a b = Except.ok c ↔ a * b < U64LIMIT ∧ c = a * b := by
  unfold mulU
  split <;> simp_all [eq_comm]

theorem divU_ok {a b c : Nat} : divU a b = Except.ok c ↔ b ≠ 0 ∧ c = a / b := by
  unfold divU
  split <;> simp_all [eq_comm]

theorem modU_ok {a b c : Nat} : modU a b = Except.ok c ↔ b ≠ 0 ∧ c = a % b := by
  unfold modU
  split <;> simp_all [eq_comm]

/-! Association list lemmas. -/

theorem alookup_cons_self {κ ν : Type} [DecidableEq κ] (tl : List (κ × ν)) (k : κ) (v : ν) :
    alookup ((k, v) :: tl) k = some v := by
  simp [alookup]

theorem alookup_cons_ne {κ ν : Type} [DecidableEq κ] (tl : List (κ × ν)) (hk key : κ)
    (hv : ν) (h : hk ≠ key) : alookup ((hk, hv) :: tl) key = alookup tl key := by
  simp [alookup, h]

theorem aerase_cons_self {κ ν : Type} [DecidableEq κ] (tl : List (κ × ν)) (k : κ) (v : ν) :
    aerase ((k, v) :: tl) k = aerase tl k := by
  simp [aerase]

theorem aerase_cons_ne {κ ν : Type} [DecidableEq κ] (tl : List (κ × ν)) (hk k : κ)
    (hv : ν) (h : hk ≠ k) : aerase ((hk, hv) :: tl) k = (hk, hv) :: aerase tl k := by
  simp [aerase, h]

theorem alookup_aerase {κ ν : Type} [DecidableEq κ] (l : List (κ × ν)) (k key : κ) :
    alookup (aerase l k) key = if k = key then none else alookup l key := by
  induction l with
  | nil => simp [aerase, alookup]
  | cons hd tl ih =>
    obtain ⟨hk, hv⟩ := hd
    by_cases h1 : hk = k
    · subst h1
      rw [aerase_cons_self, ih]
      by_cases h2 : hk = key
      · subst h2
        simp
      · simp [alookup, h2]
    · rw [aerase_cons_ne _ _ _ _ h1]
      by_cases h2 : hk = key
      · subst h2
        have hkx : ¬ k = hk := fun hc => h1 hc.symm
        rw [alookup_cons_self, alookup_cons_self, if_neg hkx]
      · rw [alookup_cons_ne _ _ _ _ h2, alookup_cons_ne _ _ _ _ h2, ih]

theorem alookup_ainsert {κ ν : Type} [DecidableEq κ] (l : List (κ × ν)) (k key : κ) (v : ν) :
    alookup (ainsert l k v) key = if k = key then some v else alookup l key := by
  unfold ainsert
  by_cases h : k = key
  · subst h
    rw [alookup_cons_self, if_pos rfl]
  · rw [alookup_cons_ne _ _ _ _ h, alookup_aerase, if_neg h, if_neg h]

theorem mem_aerase {κ ν : Type} [DecidableEq κ] {l : List (κ × ν)} {k : κ} {p : κ × ν} :
    p ∈ aerase l k ↔ p ∈ l ∧ p.1 ≠ k := by
  induction l with
  | nil => simp [aerase]
  | cons hd tl ih =>
    obtain ⟨hk, hv⟩ := hd
    by_cases h1 : hk = k
    · subst h1
      rw [aerase_cons_self]
      rw [ih]
      simp only [List.mem_cons]
      constructor
      · rintro ⟨hm, hne⟩
        exact ⟨Or.inr hm, hne⟩
      · rintro ⟨hm | hm, hne⟩
        · exact absurd (congrArg Prod.fst hm) hne
        · exact ⟨hm, hne⟩
    · rw [aerase_cons_ne _ _ _ _ h1]
      simp only [List.mem_cons, ih]
      constructor
      · rintro (hm | ⟨hm, hne⟩)
        · subst hm
          exact ⟨Or.inl rfl, h1⟩
        · exact ⟨Or.inr hm, hne⟩
      · rintro ⟨hm | hm, hne⟩
        · exact Or.inl hm
        · exact Or.inr ⟨hm, hne⟩

theorem mem_ainsert {κ ν : Type} [DecidableEq κ] {l : List (κ × ν)} {k : κ} {v : ν}
    {p : κ × ν} : p ∈ ainsert l k v ↔ p = (k, v) ∨ (p ∈ l ∧ p.1 ≠ k) := by
  simp [ainsert, mem_aerase]

theorem alookup_mem {κ ν : Type} [DecidableEq κ] {l : List (κ × ν)} {key : κ} {v : ν}
    (h : alookup l key = some v) : (key, v) ∈ l := by
  induction l with
  | nil => simp [alookup] at h
  | cons hd tl ih =>
    obtain ⟨hk, hv⟩ := hd
    by_cases h1 : hk = key
    · subst h1
      rw [alookup_cons_self] at h
      simp only [Option.some.injEq] at h
      subst h
      exact List.mem_cons_self _ _
    · rw [alookup_cons_ne _ _ _ _ h1] at h
      exact List.mem_cons_of_mem _ (ih h)

theorem aerase_of_alookup_none {κ ν : Type} [DecidableEq κ] {l : List (κ × ν)} {key : κ}
    (h : alookup l key = none) : aerase l key = l := by
  induction l with
  | nil => rfl
  | cons hd tl ih =>
    obtain ⟨hk, hv⟩ := hd
    by_cases h1 : hk = key
    · subst h1
      rw [alookup_cons_self] at h
      exact absurd h (by simp)
    · rw [alookup_cons_ne _ _ _ _ h1] at h
      rw [aerase_cons_ne _ _ _ _ h1, ih h]

theorem length_aerase_le {κ ν : Type} [DecidableEq κ] (l : List (κ × ν)) (k : κ) :
    (aerase l k).length ≤ l.length := by
  induction l with
  | nil => simp [aerase]
  | cons hd tl ih =>
    obtain ⟨hk, hv⟩ := hd
    by_cases h1 : hk = k
    · subst h1
      rw [aerase_cons_self]
      exact Nat.le_succ_of_le ih
    · rw [aerase_cons_ne _ _ _ _ h1]
      simpa using ih

theorem aerase_aerase {κ ν : Type} [DecidableEq κ] (l : List (κ × ν)) (k : κ) :
    aerase (aerase l k) k = aerase l k := by
  apply aerase_of_alookup_none
  rw [alookup_aerase]
  simp

theorem aerase_ainsert {κ ν : Type} [DecidableEq κ] (l : List (κ × ν)) (k : κ) (v : ν) :
    aerase (ainsert l k v) k = aerase l k := by
  unfold ainsert
  rw [aerase_cons_self, aerase_aerase]

theorem sendAssetTransfer_ok {env : Env} {st : GlobalState} {eff : Effects}
    {a r amt : Nat} {q : GlobalState × Effects} :
    sendAssetTransfer env st eff a r amt = Except.ok q ↔
      env.accountOptedIn r a = true ∧
      amt ≤ (alookup st.appAssetBalance a).getD 0 ∧
      q = ({ st with appAssetBalance := ainsert st.appAssetBalance a ((alookup st.appAssetBalance a).getD 0 - amt) },
           { eff with axfers := eff.axfers ++ [⟨a, r, amt⟩] }) := by
  unfold sendAssetTransfer
  simp only [bindE_ok, exbind_ok, check_eq_ok, subU_ok, Except.ok.injEq]
  constructor
  · rintro ⟨u, hopt, nb, ⟨hle, hnb⟩, hq⟩
    subst hnb
    exact ⟨hopt, hle, hq.symm⟩
  · rintro ⟨hopt, hle, hq⟩
    exact ⟨(), hopt, _, ⟨hle, rfl⟩, hq.symm⟩

theorem sendTokensFromDrop_ok {env : Env} {st : GlobalState} {eff : Effects}
    {d : TokenDropInfo} {recv amt : Nat} {q : GlobalState × Effects × Nat} :
    sendTokensFromDrop env st eff d recv amt = Except.ok q ↔
      env.accountOptedIn recv d.Config.Token = true ∧
      amt ≤ (alookup st.appAssetBalance d.Config.Token).getD 0 ∧
      amt ≤ d.AmountRemaining ∧
      ∃ cur, alookup st.allDrops d.DropId = some cur ∧
        cur.NumClaims + 1 < U64LIMIT ∧
        q = ({ st with
                appAssetBalance := ainsert st.appAssetBalance d.Config.Token ((alookup st.appAssetBalance d.Config.Token).getD 0 - amt)
                allDrops := ainsert st.allDrops d.DropId { cur with AmountRemaining := d.AmountRemaining - amt, NumClaims := cur.NumClaims + 1 } },
             { eff with axfers := eff.axfers ++ [⟨d.Config.Token, recv, amt⟩] },
             d.AmountRemaining - amt) := by
  unfold sendTokensFromDrop
  cases hcur : alookup st.allDrops d.DropId with
  | none =>
    simp only [bindE_ok, exbind_ok, sendAssetTransfer_ok, subU_ok]
    constructor
    · rintro ⟨p, ⟨hopt, hble, hp⟩, hrest⟩
      subst hp
      simp only [hcur] at hrest
      obtain ⟨rem, ⟨hrle, hrem⟩, hmatch⟩ := hrest
      exact absurd hmatch (by simp)
    · rintro ⟨hopt, hble, hrle, cur, hsome, hrest⟩
      exact absurd hsome (by simp)
  | some cur =>
    simp only [bindE_ok, exbind_ok, sendAssetTransfer_ok, subU_ok]
    constructor
    · rintro ⟨p, ⟨hopt, hble, hp⟩, hrest⟩
      subst hp
      simp only [hcur] at hrest
      obtain ⟨rem, ⟨hrle, hrem⟩, hmatch⟩ := hrest
      subst hrem
      simp only [bindE_ok, exbind_ok, addU_ok, Except.ok.injEq] at hmatch
      obtain ⟨n1, ⟨hlt, hn1⟩, hq⟩ := hmatch
      subst hn1
      exact ⟨hopt, hble, hrle, cur, rfl, hlt, hq.symm⟩
    · rintro ⟨hopt, hble, hrle, cur2, hsome, hlt, hq⟩
      injection hsome with hinj
      subst hinj
      refine ⟨_, ⟨hopt, hble, rfl⟩, ?_⟩
      simp only [bindE_ok, exbind_ok, subU_ok, addU_ok, Except.ok.injEq]
      refine ⟨_, ⟨hrle, rfl⟩, ?_⟩
      simp only [hcur]
      simp only [bindE_ok, exbind_ok, addU_ok, Except.ok.injEq]
      exact ⟨_, ⟨hlt, rfl⟩, hq.symm⟩

theorem removeFromDrops_ok {st : GlobalState} {id : Nat} {st' : GlobalState} {info : TokenDropInfo}
    (hl : alookup st.allDrops id = some info) :
    removeFromDrops st id = Except.ok st' ↔
      st' = { st with dropForToken := aerase st.dropForToken info.Config.Token, allDrops := aerase st.allDrops id } := by
  unfold removeFromDrops
  rw [hl]
  simp only [Except.ok.injEq]
  exact ⟨fun h => h.symm, fun h => h.symm⟩

theorem refund_ok_inv {env : Env} {st : GlobalState} {eff : Effects} {id : Nat}
    {st' : GlobalState} {eff' : Effects} {info : TokenDropInfo}
    (hl : alookup st.allDrops id = some info) (hkey : info.DropId = id)
    (h : refundDropCreatorRemainingTokens env st eff id = Except.ok (st', eff')) :
    (st'.allDrops = st.allDrops ∨
      st'.allDrops = ainsert st.allDrops id { info with AmountRemaining := info.AmountRemaining - info.AmountRemaining, NumClaims := info.NumClaims + 1 }) ∧
    st'.dropForToken = st.dropForToken ∧
    st'.claimedMap = st.claimedMap ∧
    st'.appOptedInAssets.length ≤ st.appOptedInAssets.length ∧
    st'.lastDropId = st.lastDropId ∧
    st'.creationFeeAmount = st.creationFeeAmount ∧
    st'.perClaimFeeAmount = st.perClaimFeeAmount ∧
    st'.maintainerAddress = st.maintainerAddress ∧
    st'.totalClaims = st.totalClaims ∧
    st'.nfdRegistryAppId = st.nfdRegistryAppId ∧
    eff'.pays = eff.pays ∧
    (0 < info.AmountRemaining →
      Axfer.mk info.Config.Token info.DropCreator info.AmountRemaining ∈ eff'.axfers) := by
  unfold refundDropCreatorRemainingTokens at h
  rw [hl] at h
  by_cases hrem : 0 < info.AmountRemaining
  · simp only [if_pos hrem] at h
    simp only [bindE_ok, exbind_ok, sendTokensFromDrop_ok, Except.ok.injEq] at h
    obtain ⟨q3, ⟨hopt, hble, hrle, cur, hcur, hnum, hq3⟩, p, hp, hfin⟩ := h
    rw [hkey, hl] at hcur
    injection hcur with hcureq
    subst hcureq
    subst hq3
    subst hp
    split at hfin <;>
      (simp only [Except.ok.injEq, Prod.mk.injEq] at hfin
       obtain ⟨hst, heff⟩ := hfin
       subst hst
       subst heff)
    · refine ⟨Or.inr (by rw [hkey]), rfl, rfl, ?_, rfl, rfl, rfl, rfl, rfl, rfl, rfl,
        fun _ => by simp⟩
      exact (List.erase_sublist _ _).length_le
    · exact ⟨Or.inr (by rw [hkey]), rfl, rfl, Nat.le_refl _, rfl, rfl, rfl, rfl, rfl, rfl, rfl,
        fun _ => by simp⟩
  · simp only [if_neg hrem] at h
    simp only [bindE_ok, exbind_ok, Except.ok.injEq] at h
    obtain ⟨p, hp, hfin⟩ := h
    subst hp
    split at hfin <;>
      (simp only [Except.ok.injEq, Prod.mk.injEq] at hfin
       obtain ⟨hst, heff⟩ := hfin
       subst hst
       subst heff)
    · exact ⟨Or.inl rfl, rfl, rfl, (List.erase_sublist _ _).length_le, rfl, rfl, rfl, rfl, rfl,
        rfl, rfl, fun hc => absurd hc hrem⟩
    · exact ⟨Or.inl rfl, rfl, rfl, Nat.le_refl _, rfl, rfl, rfl, rfl, rfl, rfl, rfl,
        fun hc => absurd hc hrem⟩

theorem bindE_exists {α β : Type} {m : Except String α} {f : α → Except String β}
    (hm : ∃ a, m = Except.ok a) (hf : ∀ a, ∃ b, f a = Except.ok b) :
    ∃ b, (m >>= f) = Except.ok b := by
  obtain ⟨a, ha⟩ := hm
  obtain ⟨b, hb⟩ := hf a
  refine ⟨b, ?_⟩
  rw [bindE_ok]
  exact ⟨a, ha, hb⟩

theorem refund_exists {env : Env} {st : GlobalState} {eff : Effects} {id : Nat}
    {info : TokenDropInfo}
    (hl : alookup st.allDrops id = some info) (hkey : info.DropId = id)
    (hbal : info.AmountRemaining ≤ (alookup st.appAssetBalance info.Config.Token).getD 0)
    (hopt : env.accountOptedIn info.DropCreator info.Config.Token = true)
    (hnum : info.NumClaims + 1 < U64LIMIT) :
    ∃ r, refundDropCreatorRemainingTokens env st eff id = Except.ok r := by
  unfold refundDropCreatorRemainingTokens
  simp only [hl]
  by_cases hrem : 0 < info.AmountRemaining
  · simp only [if_pos hrem]
    apply bindE_exists
    · refine ⟨_, sendTokensFromDrop_ok.mpr ⟨hopt, hbal, Nat.le_refl _, info, ?_, hnum, rfl⟩⟩
      rw [hkey]
      exact hl
    · intro a
      apply bindE_exists
      · exact ⟨_, rfl⟩
      · intro y
        by_cases hb : (alookup y.1.appAssetBalance info.Config.Token).getD 0 = 0
        · simp only [if_pos hb]
          exact ⟨_, rfl⟩
        · simp only [if_neg hb]
          exact ⟨_, rfl⟩
  · simp only [if_neg hrem]
    apply bindE_exists
    · exact ⟨_, rfl⟩
    · intro y
      by_cases hb : (alookup y.1.appAssetBalance info.Config.Token).getD 0 = 0
      · simp only [if_pos hb]
        exact ⟨_, rfl⟩
      · simp only [if_neg hb]
        exact ⟨_, rfl⟩

theorem bindE_exists_on {α β : Type} {m : Except String α} {f : α → Except String β} {a : α}
    (hm : m = Except.ok a) (hf : ∃ b, f a = Except.ok b) :
    ∃ b, (m >>= f) = Except.ok b := by
  obtain ⟨b, hb⟩ := hf
  exact ⟨b, bindE_ok.mpr ⟨a, hm, hb⟩⟩

theorem minBalance_mono {a b : GlobalState}
    (h1 : a.appOptedInAssets.length ≤ b.appOptedInAssets.length)
    (h2 : a.allDrops.length ≤ b.allDrops.length)
    (h3 : a.dropForToken.length ≤ b.dropForToken.length)
    (h4 : a.claimedMap.length ≤ b.claimedMap.length) :
    minBalance a ≤ minBalance b := by
  unfold minBalance
  exact Nat.add_le_add (Nat.add_le_add (Nat.add_le_add (Nat.add_le_add (Nat.le_refl _)
    (Nat.mul_le_mul_left _ h1)) (Nat.mul_le_mul_left _ h2)) (Nat.mul_le_mul_left _ h3))
    (Nat.mul_le_mul_left _ h4)

theorem cleanupTail_inv {env : Env} {st : GlobalState} {eff : Effects}
    {id : Nat} {st' : GlobalState} {eff' : Effects} {info : TokenDropInfo}
    (hl : alookup st.allDrops id = some info) (hkey : info.DropId = id)
    (hrest : ∃ a, refundDropCreatorRemainingTokens env st eff id = Except.ok a ∧
      ∃ a1, removeFromDrops a.1 id = Except.ok a1 ∧
        ∃ a2, subU (minBalance st) (minBalance a1) = Except.ok a2 ∧
          (a1, sendPayment a.2 info.DropCreator a2) = (st', eff')) :
    st'.allDrops = aerase st.allDrops id ∧
    st'.dropForToken = aerase st.dropForToken info.Config.Token ∧
    st'.claimedMap = st.claimedMap ∧
    st'.lastDropId = st.lastDropId ∧
    st'.creationFeeAmount = st.creationFeeAmount ∧
    st'.perClaimFeeAmount = st.perClaimFeeAmount ∧
    st'.maintainerAddress = st.maintainerAddress ∧
    st'.totalClaims = st.totalClaims ∧
    st'.nfdRegistryAppId = st.nfdRegistryAppId ∧
    minBalance st' ≤ minBalance st ∧
    eff'.pays = eff.pays ++ [⟨info.DropCreator, minBalance st - minBalance st'⟩] ∧
    (0 < info.AmountRemaining →
      Axfer.mk info.Config.Token info.DropCreator info.AmountRemaining ∈ eff'.axfers) := by
  obtain ⟨a, h1, hrest2⟩ := hrest
  obtain ⟨st1, eff1⟩ := a
  have hr := refund_ok_inv hl hkey h1
  obtain ⟨hAD, hDFT, hCM, hOA, hLID, hCF, hPF, hMA, hTC, hNR, hPAYS, hAX⟩ := hr
  have hlook : ∃ info2, alookup st1.allDrops id = some info2 ∧
      info2.Config.Token = info.Config.Token := by
    rcases hAD with hAD | hAD
    · exact ⟨info, by rw [hAD]; exact hl, rfl⟩
    · exact ⟨{ info with AmountRemaining := info.AmountRemaining - info.AmountRemaining, NumClaims := info.NumClaims + 1 }, by rw [hAD, alookup_ainsert, if_pos rfl], rfl⟩
  obtain ⟨info2, hlook2, htok⟩ := hlook
  obtain ⟨st2, h2, a2, hsub, hfin⟩ := hrest2
  rw [removeFromDrops_ok hlook2] at h2
  subst h2
  rw [subU_ok] at hsub
  obtain ⟨hle, hmbr⟩ := hsub
  subst hmbr
  simp only [Prod.mk.injEq] at hfin
  obtain ⟨hst, heff⟩ := hfin
  subst hst
  subst heff
  refine ⟨?_, ?_, hCM, hLID, hCF, hPF, hMA, hTC, hNR, hle, ?_, ?_⟩
  · show aerase st1.allDrops id = aerase st.allDrops id
    rcases hAD with hAD | hAD
    · rw [hAD]
    · rw [hAD, aerase_ainsert]
  · show aerase st1.dropForToken info2.Config.Token = aerase st.dropForToken info.Config.Token
    rw [hDFT, htok]
  · show (sendPayment eff1 info.DropCreator _).pays = _
    unfold sendPayment
    simp only [hPAYS]
  · intro hpos
    show Axfer.mk info.Config.Token info.DropCreator info.AmountRemaining ∈
      (sendPayment eff1 info.DropCreator _).axfers
    unfold sendPayment
    exact hAX hpos

theorem cleanupDrop_ok_inv {env : Env} {sender : Nat} {st : GlobalState} {eff : Effects}
    {id : Nat} {st' : GlobalState} {eff' : Effects} {info : TokenDropInfo}
    (hl : alookup st.allDrops id = some info) (hkey : info.DropId = id)
    (h : cleanupDrop env sender st eff id = Except.ok (st', eff')) :
    (sender = info.DropCreator ∨ isDropExpiredOrEmpty env info = true) ∧
    (st'.allDrops = aerase st.allDrops id ∧
    st'.dropForToken = aerase st.dropForToken info.Config.Token ∧
    st'.claimedMap = st.claimedMap ∧
    st'.lastDropId = st.lastDropId ∧
    st'.creationFeeAmount = st.creationFeeAmount ∧
    st'.perClaimFeeAmount = st.perClaimFeeAmount ∧
    st'.maintainerAddress = st.maintainerAddress ∧
    st'.totalClaims = st.totalClaims ∧
    st'.nfdRegistryAppId = st.nfdRegistryAppId ∧
    minBalance st' ≤ minBalance st ∧
    eff'.pays = eff.pays ++ [⟨info.DropCreator, minBalance st - minBalance st'⟩] ∧
    (0 < info.AmountRemaining →
      Axfer.mk info.Config.Token info.DropCreator info.AmountRemaining ∈ eff'.axfers)) := by
  unfold cleanupDrop at h
  simp only [hl] at h
  by_cases hs : sender ≠ info.DropCreator
  · simp only [if_pos hs, bindE_ok, exbind_ok, check_eq_ok, Except.ok.injEq] at h
    obtain ⟨u, hexp, hrest⟩ := h
    exact ⟨Or.inr hexp, cleanupTail_inv hl hkey hrest⟩
  · push_neg at hs
    have hcond : ¬ sender ≠ info.DropCreator := by simp [hs]
    simp only [if_neg hcond, bindE_ok, exbind_ok, Except.ok.injEq] at h
    obtain ⟨u, _, hrest⟩ := h
    exact ⟨Or.inl hs, cleanupTail_inv hl hkey hrest⟩

theorem cleanupTail_exists {env : Env} {st : GlobalState} {eff : Effects}
    {id : Nat} {info : TokenDropInfo}
    (hl : alookup st.allDrops id = some info) (hkey : info.DropId = id)
    (hbal : info.AmountRemaining ≤ (alookup st.appAssetBalance info.Config.Token).getD 0)
    (hopt : env.accountOptedIn info.DropCreator info.Config.Token = true)
    (hnum : info.NumClaims + 1 < U64LIMIT) :
    ∃ b, (refundDropCreatorRemainingTokens env st eff id >>= fun a =>
      removeFromDrops a.1 id >>= fun st2 =>
        subU (minBalance st) (minBalance st2) >>= fun mbrRefund =>
          Except.ok (st2, sendPayment a.2 info.DropCreator mbrRefund)) = Except.ok b := by
  obtain ⟨r1, hrun⟩ := @refund_exists env st eff id info hl hkey hbal hopt hnum
  obtain ⟨st1, eff1⟩ := r1
  apply bindE_exists_on hrun
  have hr := refund_ok_inv hl hkey hrun
  obtain ⟨hAD, hDFT, hCM, hOA, _, _, _, _, _, _, _, _⟩ := hr
  have hlook : ∃ info2, alookup st1.allDrops id = some info2 := by
    rcases hAD with hAD | hAD
    · exact ⟨info, by rw [hAD]; exact hl⟩
    · exact ⟨{ info with AmountRemaining := info.AmountRemaining - info.AmountRemaining, NumClaims := info.NumClaims + 1 }, by rw [hAD, alookup_ainsert, if_pos rfl]⟩
  obtain ⟨info2, hlook2⟩ := hlook
  apply bindE_exists_on ((removeFromDrops_ok hlook2).mpr rfl)
  have hmono : minBalance { st1 with dropForToken := aerase st1.dropForToken info2.Config.Token, allDrops := aerase st1.allDrops id } ≤ minBalance st := by
    apply minBalance_mono
    · exact hOA
    · show (aerase st1.allDrops id).length ≤ st.allDrops.length
      rcases hAD with hAD | hAD
      · rw [hAD]
        exact length_aerase_le _ _
      · rw [hAD, aerase_ainsert]
        exact length_aerase_le _ _
    · show (aerase st1.dropForToken info2.Config.Token).length ≤ st.dropForToken.length
      rw [hDFT]
      exact length_aerase_le _ _
    · rw [hCM]
  apply bindE_exists_on (subU_ok.mpr ⟨hmono, rfl⟩)
  exact ⟨_, rfl⟩

theorem cleanupDrop_exists {env : Env} {sender : Nat} {st : GlobalState} {eff : Effects}
    {id : Nat} {info : TokenDropInfo}
    (hl : alookup st.allDrops id = some info) (hkey : info.DropId = id)
    (hauth : sender = info.DropCreator ∨ isDropExpiredOrEmpty env info = true)
    (hbal : info.AmountRemaining ≤ (alookup st.appAssetBalance info.Config.Token).getD 0)
    (hopt : env.accountOptedIn info.DropCreator info.Config.Token = true)
    (hnum : info.NumClaims + 1 < U64LIMIT) :
    ∃ r, cleanupDrop env sender st eff id = Except.ok r := by
  unfold cleanupDrop
  simp only [hl]
  by_cases hs : sender ≠ info.DropCreator
  · simp only [if_pos hs]
    apply bindE_exists
    · rcases hauth with hc | hexp
      · exact absurd hc hs
      · exact ⟨(), check_eq_ok.mpr hexp⟩
    · intro u
      exact cleanupTail_exists hl hkey hbal hopt hnum
  · simp only [if_neg hs]
    apply bindE_exists
    · exact ⟨(), rfl⟩
    · intro u
      exact cleanupTail_exists hl hkey hbal hopt hnum

theorem claimDrop_ok_inv {env : Env} {sender : Nat} {st : GlobalState} {pay : PayTxn}
    {id v : Nat} {st' : GlobalState} {eff : Effects}
    (h : claimDrop env sender st pay id v = Except.ok (st', eff)) :
    ∃ info, alookup st.allDrops id = some info ∧
      sender ≠ info.DropCreator ∧
      isDropExpiredOrEmpty env info = false ∧
      env.accountOptedIn sender info.Config.Token = true ∧
      alookup st.claimedMap (id, sender) = none ∧
      getPerClaimerMbrCost * 2 ≤ st.perClaimFeeAmount ∧
      pay.receiver = env.appAddress ∧
      pay.sender = sender ∧
      pay.amount = st.perClaimFeeAmount ∧
      eff.pays = [⟨st.maintainerAddress, st.perClaimFeeAmount * 500 / 1000⟩,
        ⟨env.feeSink, st.perClaimFeeAmount - st.perClaimFeeAmount * 500 / 1000 - getPerClaimerMbrCost⟩] ∧
      eff.axfers = [⟨info.Config.Token, sender, info.Config.AmountPerClaim⟩] ∧
      st'.claimedMap = ainsert st.claimedMap (id, sender) ⟨env.txnId⟩ ∧
      st'.totalClaims = st.totalClaims + 1 ∧
      st'.perClaimFeeAmount = st.perClaimFeeAmount ∧
      st'.maintainerAddress = st.maintainerAddress ∧
      st'.lastDropId = st.lastDropId ∧
      st'.dropForToken = st.dropForToken ∧
      info.Config.AmountPerClaim ≤ info.AmountRemaining ∧
      ∃ cur, alookup st.allDrops info.DropId = some cur ∧
        st'.allDrops = ainsert st.allDrops info.DropId { cur with AmountRemaining := info.AmountRemaining - info.Config.AmountPerClaim, NumClaims := cur.NumClaims + 1 } := by
  unfold claimDrop at h
  cases hl : alookup st.allDrops id with
  | none =>
    rw [hl] at h
    exact absurd h (by simp)
  | some info =>
    rw [hl] at h
    simp only [bindE_ok, exbind_ok, check_eq_ok, mulU_ok, subU_ok, addU_ok,
      sendTokensFromDrop_ok, Except.ok.injEq, exists_and_left] at h
    obtain ⟨hncr, hlive, hoptin, hnrec, _, _, _, _, u5, hgate, dbl, ⟨hdlt, hdbl⟩, hfee,
      hrecv, hsend, hamt, _, _, _, _, sc, ⟨hscov, hsc⟩, am, ⟨ham1, ham2⟩, fs, ⟨hfs1, hfs2⟩,
      nt, ⟨hnt1, hnt2⟩, q3, ⟨hopt2, hbal2, hrle2, cur, hcur, hnum2, hq3⟩, hfin⟩ := h
    simp only [Prod.mk.injEq] at hfin
    obtain ⟨hst, heff⟩ := hfin
    subst hst
    subst heff
    refine ⟨info, rfl, hncr, by simpa using hlive, hoptin, hnrec, hdbl ▸ hfee, hrecv, hsend,
      hamt, ?_, ?_, ?_, ?_, ?_, ?_, ?_, ?_, hrle2, cur, hcur, ?_⟩ <;>
      simp [hq3, hnt2, hfs2, ham2, hsc, sendPayment]

theorem removeFromDrops_ok_inv {st : GlobalState} {id : Nat} {st2 : GlobalState}
    (h : removeFromDrops st id = Except.ok st2) :
    ∃ info2, alookup st.allDrops id = some info2 ∧
      st2 = { st with dropForToken := aerase st.dropForToken info2.Config.Token, allDrops := aerase st.allDrops id } := by
  unfold removeFromDrops at h
  cases hl : alookup st.allDrops id with
  | none =>
    rw [hl] at h
    exact absurd h (by simp)
  | some info2 =>
    rw [hl] at h
    simp only [Except.ok.injEq] at h
    exact ⟨info2, rfl, h.symm⟩

theorem refund_scalars {env : Env} {st : GlobalState} {eff : Effects} {id : Nat}
    {st1 : GlobalState} {eff1 : Effects}
    (h : refundDropCreatorRemainingTokens env st eff id = Except.ok (st1, eff1)) :
    st1.dropForToken = st.dropForToken ∧
    st1.claimedMap = st.claimedMap ∧
    st1.lastDropId = st.lastDropId ∧
    st1.creationFeeAmount = st.creationFeeAmount ∧
    st1.perClaimFeeAmount = st.perClaimFeeAmount ∧
    st1.maintainerAddress = st.maintainerAddress ∧
    st1.totalClaims = st.totalClaims ∧
    st1.nfdRegistryAppId = st.nfdRegistryAppId ∧
    eff1.pays = eff.pays := by
  unfold refundDropCreatorRemainingTokens at h
  cases hl : alookup st.allDrops id with
  | none =>
    rw [hl] at h
    exact absurd h (by simp)
  | some info0 =>
    rw [hl] at h
    by_cases hrem : 0 < info0.AmountRemaining
    · simp only [if_pos hrem] at h
      simp only [bindE_ok, exbind_ok, sendTokensFromDrop_ok, Except.ok.injEq] at h
      obtain ⟨q3, ⟨hopt, hble, hrle, cur, hcur, hnum, hq3⟩, p, hp, hfin⟩ := h
      subst hq3
      subst hp
      split at hfin <;>
        (simp only [Except.ok.injEq, Prod.mk.injEq] at hfin
         obtain ⟨hst, heff⟩ := hfin
         subst hst
         subst heff) <;>
        exact ⟨rfl, rfl, rfl, rfl, rfl, rfl, rfl, rfl, rfl⟩
    · simp only [if_neg hrem] at h
      simp only [bindE_ok, exbind_ok, Except.ok.injEq] at h
      obtain ⟨p, hp, hfin⟩ := h
      subst hp
      split at hfin <;>
        (simp only [Except.ok.injEq, Prod.mk.injEq] at hfin
         obtain ⟨hst, heff⟩ := hfin
         subst hst
         subst heff) <;>
        exact ⟨rfl, rfl, rfl, rfl, rfl, rfl, rfl, rfl, rfl⟩

theorem cleanup_scalars {env : Env} {sender : Nat} {st : GlobalState} {eff : Effects}
    {id : Nat} {st' : GlobalState} {eff' : Effects}
    (h : cleanupDrop env sender st eff id = Except.ok (st', eff')) :
    st'.lastDropId = st.lastDropId ∧
    st'.creationFeeAmount = st.creationFeeAmount ∧
    st'.perClaimFeeAmount = st.perClaimFeeAmount ∧
    st'.maintainerAddress = st.maintainerAddress ∧
    st'.totalClaims = st.totalClaims ∧
    st'.claimedMap = st.claimedMap ∧
    st'.nfdRegistryAppId = st.nfdRegistryAppId := by
  unfold cleanupDrop at h
  cases hl : alookup st.allDrops id with
  | none =>
    rw [hl] at h
    exact absurd h (by simp)
  | some info0 =>
    rw [hl] at h
    have htail : ∃ a, refundDropCreatorRemainingTokens env st eff id = Except.ok a ∧
        ∃ a1, removeFromDrops a.1 id = Except.ok a1 ∧
          ∃ a2, subU (minBalance st) (minBalance a1) = Except.ok a2 ∧
            (a1, sendPayment a.2 info0.DropCreator a2) = (st', eff') := by
      by_cases hs : sender ≠ info0.DropCreator
      · simp only [if_pos hs, bindE_ok, exbind_ok, check_eq_ok, Except.ok.injEq] at h
        obtain ⟨u, hexp, hrest⟩ := h
        exact hrest
      · simp only [if_neg hs, bindE_ok, exbind_ok, Except.ok.injEq] at h
        obtain ⟨u, _, hrest⟩ := h
        exact hrest
    obtain ⟨a, h1, st2, h2, a2, hsub, hfin⟩ := htail
    obtain ⟨st1, eff1⟩ := a
    have hrs := refund_scalars h1
    obtain ⟨info2, hlook2, hst2⟩ := removeFromDrops_ok_inv h2
    subst hst2
    simp only [Prod.mk.injEq] at hfin
    obtain ⟨hst, heff⟩ := hfin
    subst hst
    subst heff
    exact ⟨hrs.2.2.1, hrs.2.2.2.1, hrs.2.2.2.2.1, hrs.2.2.2.2.2.1, hrs.2.2.2.2.2.2.1,
      hrs.2.1, hrs.2.2.2.2.2.2.2.1⟩

theorem createDrop_ok_inv {env : Env} {sender : Nat} {st : GlobalState} {pay : PayTxn}
    {ax : AssetTransferTxn} {cfg : TokenDropConfig} {st' : GlobalState} {eff : Effects}
    {ret : Nat}
    (h : createDrop env sender st pay ax cfg = Except.ok (st', eff, ret)) :
    0 < ax.assetAmount ∧
    ax.xferAsset = cfg.Token ∧
    cfg.AmountPerClaim ≤ ax.assetAmount ∧
    cfg.AmountPerClaim ≠ 0 ∧
    ax.assetAmount % cfg.AmountPerClaim = 0 ∧
    env.latestTimestamp + 86400 < cfg.AirdropEndTime ∧
    cfg.AirdropEndTime ≤ env.latestTimestamp + (3600 + 86400 * 7) ∧
    pay.receiver = env.appAddress ∧
    getDropCreateCost st ≤ pay.amount ∧
    ret = st.lastDropId + 1 ∧
    st'.lastDropId = ret ∧
    alookup st'.allDrops ret = some ⟨ret, ax.sender, ax.assetAmount, ax.assetAmount / cfg.AmountPerClaim, 0, cfg⟩ ∧
    alookup st'.dropForToken cfg.Token = some ret ∧
    (getDropCreateCost st < pay.amount →
      Pay.mk pay.sender (pay.amount - getDropCreateCost st) ∈ eff.pays) ∧
    Pay.mk st.maintainerAddress (st.creationFeeAmount / 2) ∈ eff.pays ∧
    Pay.mk env.feeSink (st.creationFeeAmount / 2) ∈ eff.pays := by
  unfold createDrop at h
  simp only [bindE_ok, exbind_ok, check_eq_ok, mulU_ok, subU_ok, addU_ok, divU_ok, modU_ok,
    Except.ok.injEq, exists_and_left] at h
  obtain ⟨hrecvax, hpos, hxfer, hcont, htokeq, hle, _, _, _, _, _, _, m1, ⟨hAPCne, hm1⟩,
    hm10, _, d1, ⟨hdayov, hd1⟩, hdaylt, _, w1, ⟨hweekov, hw1⟩, hweekle, _, hmatch⟩ := h
  subst hm1
  subst hd1
  subst hw1
  cases hidx : alookup st.dropForToken cfg.Token with
  | none =>
    simp only [hidx] at hmatch
    simp only [bindE_ok, exbind_ok, check_eq_ok, addU_ok, divU_ok, Except.ok.injEq,
      exists_and_left, Prod.mk.injEq] at hmatch
    obtain ⟨a, ha, _, hgate, nl, ⟨hnlov, hnl⟩, mc, ⟨_, hmc⟩, hpayrecv, hcost, hstq, heffq,
      _, _, hret⟩ := hmatch
    subst ha
    subst hmc
    subst hret
    subst hstq
    subst heffq
    subst hnl
    refine ⟨hpos, hxfer, hle, hAPCne, hm10, hdaylt, hweekle, hpayrecv, hcost, rfl, rfl,
      ?_, ?_, ?_, ?_, ?_⟩
    · rw [alookup_ainsert, if_pos rfl]
    · rw [alookup_ainsert, if_pos rfl]
    · intro hover
      simp only [sendPayment, getDropCreateCost] at hover ⊢
      rw [if_pos hover]
      simp
    · simp only [sendPayment]
      simp
    · simp only [sendPayment]
      simp
  | some oldId =>
    simp only [hidx] at hmatch
    cases hold : alookup st.allDrops oldId with
    | none =>
      simp only [hold] at hmatch
      exact absurd hmatch (by simp [Bind.bind, Except.bind])
    | some oldInfo =>
      simp only [hold] at hmatch
      simp only [bindE_ok, exbind_ok, check_eq_ok, addU_ok, divU_ok, Except.ok.injEq,
        exists_and_left, Prod.mk.injEq] at hmatch
      obtain ⟨hexp, _, a, hclean, _, hgate, nl, ⟨hnlov, hnl⟩, mc, ⟨_, hmc⟩, hpayrecv, hcost,
        hstq, heffq, _, _, hret⟩ := hmatch
      obtain ⟨amid, aeff⟩ := a
      obtain ⟨hsLID, hsCF, hsPF, hsMA, hsTC, hsCM, hsNR⟩ := cleanup_scalars hclean
      simp only at hsLID hsCF hsPF hsMA hsTC hsCM hsNR
      subst hmc
      subst hret
      subst hstq
      subst heffq
      subst hnl
      refine ⟨hpos, hxfer, hle, hAPCne, hm10, hdaylt, hweekle, hpayrecv, ?_, ?_, ?_,
        ?_, ?_, ?_, ?_, ?_⟩
      · unfold getDropCreateCost at hcost ⊢
        simp only at hcost
        rw [hsCF] at hcost
        exact hcost
      · simp only
        rw [hsLID]
      · rfl
      · rw [alookup_ainsert, if_pos rfl]
      · rw [alookup_ainsert, if_pos rfl]
      · intro hover
        simp only [sendPayment, getDropCreateCost] at hover ⊢
        rw [hsCF, if_pos hover]
        simp
      · simp only [sendPayment]
        rw [hsMA, hsCF]
        simp
      · simp only [sendPayment]
        rw [hsCF]
        simp

theorem createDrop_fresh_allDrops {env : Env} {sender : Nat} {st : GlobalState}
    {pay : PayTxn} {ax : AssetTransferTxn} {cfg : TokenDropConfig} {st' : GlobalState}
    {eff : Effects} {ret : Nat}
    (hidx : alookup st.dropForToken cfg.Token = none)
    (h : createDrop env sender st pay ax cfg = Except.ok (st', eff, ret)) :
    st'.allDrops = ainsert st.allDrops ret ⟨ret, ax.sender, ax.assetAmount, ax.assetAmount / cfg.AmountPerClaim, 0, cfg⟩ := by
  unfold createDrop at h
  simp only [bindE_ok, exbind_ok, check_eq_ok, mulU_ok, subU_ok, addU_ok, divU_ok, modU_ok,
    Except.ok.injEq, exists_and_left] at h
  obtain ⟨hrecvax, hpos, hxfer, hcont, htokeq, hle, _, _, _, _, _, _, m1, ⟨hAPCne, hm1⟩,
    hm10, _, d1, ⟨hdayov, hd1⟩, hdaylt, _, w1, ⟨hweekov, hw1⟩, hweekle, _, hmatch⟩ := h
  simp only [hidx] at hmatch
  simp only [bindE_ok, exbind_ok, check_eq_ok, addU_ok, divU_ok, Except.ok.injEq,
    exists_and_left, Prod.mk.injEq] at hmatch
  obtain ⟨a, ha, _, hgate, nl, ⟨hnlov, hnl⟩, mc, ⟨_, hmc⟩, hpayrecv, hcost, hstq, heffq,
    _, _, hret⟩ := hmatch
  subst ha
  subst hmc
  subst hret
  subst hstq
  subst hnl
  rfl

theorem createDrop_supersede_inv {env : Env} {sender : Nat} {st : GlobalState}
    {pay : PayTxn} {ax : AssetTransferTxn} {cfg : TokenDropConfig} {st' : GlobalState}
    {eff : Effects} {ret oldId : Nat} {oldInfo : TokenDropInfo}
    (hidx : alookup st.dropForToken cfg.Token = some oldId)
    (hold : alookup st.allDrops oldId = some oldInfo)
    (hkey : oldInfo.DropId = oldId)
    (h : createDrop env sender st pay ax cfg = Except.ok (st', eff, ret)) :
    isDropExpiredOrEmpty env oldInfo = true ∧
    st'.allDrops = ainsert (aerase st.allDrops oldId) ret ⟨ret, ax.sender, ax.assetAmount, ax.assetAmount / cfg.AmountPerClaim, 0, cfg⟩ ∧
    (0 < oldInfo.AmountRemaining →
      Axfer.mk oldInfo.Config.Token oldInfo.DropCreator oldInfo.AmountRemaining ∈ eff.axfers) ∧
    (∃ amt, Pay.mk oldInfo.DropCreator amt ∈ eff.pays) := by
  unfold createDrop at h
  simp only [bindE_ok, exbind_ok, check_eq_ok, mulU_ok, subU_ok, addU_ok, divU_ok, modU_ok,
    Except.ok.injEq, exists_and_left] at h
  obtain ⟨hrecvax, hpos, hxfer, hcont, htokeq, hle, _, _, _, _, _, _, m1, ⟨hAPCne, hm1⟩,
    hm10, _, d1, ⟨hdayov, hd1⟩, hdaylt, _, w1, ⟨hweekov, hw1⟩, hweekle, _, hmatch⟩ := h
  simp only [hidx, hold] at hmatch
  simp only [bindE_ok, exbind_ok, check_eq_ok, addU_ok, divU_ok, Except.ok.injEq,
    exists_and_left, Prod.mk.injEq] at hmatch
  obtain ⟨hexp, _, a, hclean, _, hgate, nl, ⟨hnlov, hnl⟩, mc, ⟨_, hmc⟩, hpayrecv, hcost,
    hstq, heffq, _, _, hret⟩ := hmatch
  obtain ⟨amid, aeff⟩ := a
  have hcl := @cleanupDrop_ok_inv env sender { st with appAssetBalance := ainsert st.appAssetBalance ax.xferAsset ((alookup st.appAssetBalance ax.xferAsset).getD 0 + ax.assetAmount) } ⟨[], []⟩ oldId amid aeff oldInfo hold hkey hclean
  obtain ⟨-, hcAD, hcDFT, hcCM, hcLID, hcCF, hcPF, hcMA, hcTC, hcNR, hcMB, hcPAYS, hcAX⟩ := hcl
  subst hmc
  subst hret
  subst hstq
  subst heffq
  subst hnl
  refine ⟨hexp, ?_, ?_, ?_⟩
  · show ainsert amid.allDrops _ _ = _
    rw [hcAD]
  · intro hpos2
    have hmem := hcAX hpos2
    simp only [sendPayment]
    by_cases hover : getDropCreateCost { amid with lastDropId := amid.lastDropId + 1, allDrops := ainsert amid.allDrops (amid.lastDropId + 1) ⟨amid.lastDropId + 1, ax.sender, ax.assetAmount, ax.assetAmount / cfg.AmountPerClaim, 0, cfg⟩, dropForToken := ainsert amid.dropForToken cfg.Token (amid.lastDropId + 1) } < pay.amount <;>
      simp [hover, hmem]
  · refine ⟨minBalance { st with appAssetBalance := ainsert st.appAssetBalance ax.xferAsset ((alookup st.appAssetBalance ax.xferAsset).getD 0 + ax.assetAmount) } - minBalance amid, ?_⟩
    have hmem : Pay.mk oldInfo.DropCreator (minBalance { st with appAssetBalance := ainsert st.appAssetBalance ax.xferAsset ((alookup st.appAssetBalance ax.xferAsset).getD 0 + ax.assetAmount) } - minBalance amid) ∈ aeff.pays := by
      rw [hcPAYS]
      simp
    simp only [sendPayment]
    by_cases hover : getDropCreateCost { amid with lastDropId := amid.lastDropId + 1, allDrops := ainsert amid.allDrops (amid.lastDropId + 1) ⟨amid.lastDropId + 1, ax.sender, ax.assetAmount, ax.assetAmount / cfg.AmountPerClaim, 0, cfg⟩, dropForToken := ainsert amid.dropForToken cfg.Token (amid.lastDropId + 1) } < pay.amount <;>
      simp [hover, sendPayment, hmem]

theorem createDrop_supersede_old {env : Env} {sender : Nat} {st : GlobalState}
    {pay : PayTxn} {ax : AssetTransferTxn} {cfg : TokenDropConfig} {st' : GlobalState}
    {eff : Effects} {ret oldId : Nat}
    (hidx : alookup st.dropForToken cfg.Token = some oldId)
    (h : createDrop env sender st pay ax cfg = Except.ok (st', eff, ret)) :
    ∃ oldInfo, alookup st.allDrops oldId = some oldInfo ∧
      isDropExpiredOrEmpty env oldInfo = true := by
  unfold createDrop at h
  simp only [bindE_ok, exbind_ok, check_eq_ok, mulU_ok, subU_ok, addU_ok, divU_ok, modU_ok,
    Except.ok.injEq, exists_and_left] at h
  obtain ⟨hrecvax, hpos, hxfer, hcont, htokeq, hle, _, _, _, _, _, _, m1, ⟨hAPCne, hm1⟩,
    hm10, _, d1, ⟨hdayov, hd1⟩, hdaylt, _, w1, ⟨hweekov, hw1⟩, hweekle, _, hmatch⟩ := h
  simp only [hidx] at hmatch
  cases hold : alookup st.allDrops oldId with
  | none =>
    simp only [hold] at hmatch
    exact absurd hmatch (by simp [Bind.bind, Except.bind])
  | some oldInfo =>
    simp only [hold] at hmatch
    simp only [bindE_ok, exbind_ok, check_eq_ok, addU_ok, divU_ok, Except.ok.injEq,
      exists_and_left, Prod.mk.injEq] at hmatch
    exact ⟨oldInfo, rfl, hmatch.1⟩

/-! The claims. -/

/-- Claim C10: changeFees succeeds exactly when called by the application
creator with a creation fee strictly greater than 2000000 microAlgo that is
an even number, and a per-claim fee at least double the per-receipt storage
rent; the two creation-fee constraints are enforced in addition to the
per-claim-fee check. -/
theorem c10_changeFees_constraints (env : Env) (sender : Nat) (st : GlobalState)
    (cf pf : Nat) :
    changeFees env sender st cf pf =
        Except.ok { st with creationFeeAmount := cf, perClaimFeeAmount := pf } ↔
      (sender = env.appCreator ∧ 2000000 < cf ∧ cf % 2 = 0 ∧
        getPerClaimerMbrCost * 2 ≤ pf) := by
  constructor
  · intro h
    unfold changeFees at h
    simp only [bindE_ok, exbind_ok, check_eq_ok, mulU_ok, Except.ok.injEq,
      exists_and_left] at h
    obtain ⟨h1, h2, h3, _, _, _, d, ⟨hdov, hd⟩, h4, -⟩ := h
    subst hd
    exact ⟨h1, h2, h3, h4⟩
  · rintro ⟨h1, h2, h3, h4⟩
    unfold changeFees
    simp only [bindE_ok, exbind_ok, check_eq_ok, mulU_ok, Except.ok.injEq]
    exact ⟨(), h1, (), h2, (), h3, getPerClaimerMbrCost * 2, ⟨⟨by decide, rfl⟩, (), h4, trivial⟩⟩

/-- Claim C9: for an existing drop that is expired or empty and an address
holding no claim receipt, claimClaimerBoxCost succeeds, deletes nothing (the
state is unchanged) and pays a refund of zero to the given receiver. -/
theorem c9_reclaim_without_receipt (env : Env) (st : GlobalState)
    (id claimer receiver : Nat) (info : TokenDropInfo)
    (hl : alookup st.allDrops id = some info)
    (hexp : isDropExpiredOrEmpty env info = true)
    (hnone : alookup st.claimedMap (id, claimer) = none) :
    claimClaimerBoxCost env st id claimer receiver =
      Except.ok (st, ⟨[⟨receiver, 0⟩], []⟩) := by
  unfold claimClaimerBoxCost
  simp only [hl]
  rw [show ({ st with claimedMap := aerase st.claimedMap (id, claimer) } : GlobalState) = st
    from by rw [aerase_of_alookup_none hnone]]
  simp only [bindE_ok, exbind_ok, check_eq_ok, subU_ok, Except.ok.injEq]
  exact ⟨(), hexp, 0, ⟨Nat.le_refl _, (Nat.sub_self _).symm⟩, rfl⟩

/-- Witness for C9 at concrete inputs: past expiry of the fixture drop,
reclaiming the receipt rent of address 77, which never claimed, succeeds,
leaves the state unchanged and pays receiver 9 zero. -/
theorem c9_witness :
    claimClaimerBoxCost envLate st0 1 77 9 = Except.ok (st0, ⟨[⟨9, 0⟩], []⟩) :=
  c9_reclaim_without_receipt envLate st0 1 77 9 drop0 rfl (by decide) rfl

/-- Claim C4: createDrop succeeds only when the configured end time is
strictly more than 86400 seconds after the current time and at most
3600 + 7 * 86400 seconds after it; in particular an end time exactly 6 hours
out or exactly 8 days out can never be accepted. -/
theorem c4_expiry_window (env : Env) (sender : Nat) (st : GlobalState) (pay : PayTxn)
    (ax : AssetTransferTxn) (cfg : TokenDropConfig) (st' : GlobalState) (eff : Effects)
    (ret : Nat)
    (h : createDrop env sender st pay ax cfg = Except.ok (st', eff, ret)) :
    (env.latestTimestamp + 86400 < cfg.AirdropEndTime ∧
      cfg.AirdropEndTime ≤ env.latestTimestamp + 3600 + 86400 * 7) ∧
    cfg.AirdropEndTime ≠ env.latestTimestamp + 21600 ∧
    cfg.AirdropEndTime ≠ env.latestTimestamp + 691200 := by
  obtain ⟨-, -, -, -, -, hday, hweek, -⟩ := createDrop_ok_inv h
  exact ⟨⟨hday, by omega⟩, by omega, by omega⟩

/-- Witness for C4: the fixture creation run succeeds, so its configured end
time lies in the admissible window and differs from both rejected offsets. -/
theorem c4_witness :
    (envLate.latestTimestamp + 86400 < cfg1.AirdropEndTime ∧
      cfg1.AirdropEndTime ≤ envLate.latestTimestamp + 3600 + 86400 * 7) ∧
    cfg1.AirdropEndTime ≠ envLate.latestTimestamp + 21600 ∧
    cfg1.AirdropEndTime ≠ envLate.latestTimestamp + 691200 :=
  c4_expiry_window envLate 43 st0 pay1 ax1 cfg1 stC effC 2 rfl

/-- Claim C3: claims are exactly-once.  A recorded receipt for (drop, address)
makes any further claimDrop by that address fail; when the drop is live and
every check before the receipt test passes, the failure is precisely the
already-claimed error; and a successful claimDrop records the receipt for
(drop, address) in the same atomic operation. -/
theorem c3_exactly_once :
    (∀ env sender st pay id v rec, alookup st.claimedMap (id, sender) = some rec →
      ∀ r, claimDrop env sender st pay id v ≠ Except.ok r) ∧
    (∀ env sender st pay id v info rec,
      alookup st.allDrops id = some info →
      sender ≠ info.DropCreator →
      isDropExpiredOrEmpty env info = false →
      env.accountOptedIn sender info.Config.Token = true →
      alookup st.claimedMap (id, sender) = some rec →
      claimDrop env sender st pay id v = Except.error "already claimed") ∧
    (∀ env sender st pay id v st' eff,
      claimDrop env sender st pay id v = Except.ok (st', eff) →
      alookup st'.claimedMap (id, sender) = some ⟨env.txnId⟩) := by
  refine ⟨?_, ?_, ?_⟩
  · intro env sender st pay id v rec hrec r h
    obtain ⟨st', eff⟩ := r
    obtain ⟨info, -, -, -, -, hnone, -⟩ := claimDrop_ok_inv h
    rw [hrec] at hnone
    cases hnone
  · intro env sender st pay id v info rec hl hne hexp hopt hrec
    unfold claimDrop
    simp only [hl, hrec, hexp, check, hne, hopt]
    simp [Bind.bind, Except.bind, hne]
  · intro env sender st pay id v st' eff h
    obtain ⟨info, -, -, -, -, -, -, -, -, -, -, -, hcm, -⟩ := claimDrop_ok_inv h
    rw [hcm, alookup_ainsert, if_pos rfl]

/-- Witness for C3 at concrete inputs: with a receipt already stored for
address 77 on drop 1, a second claim fails with the already-claimed error. -/
theorem c3_witness :
    claimDrop env0 77 stClaimed pay0 1 0 = Except.error "already claimed" :=
  c3_exactly_once.2.1 env0 77 stClaimed pay0 1 0 drop0 ⟨55⟩ rfl (by decide) (by decide)
    (by decide) rfl

/-- Counterexample to claim C5 as stated: overpayment is rejected by claimDrop
and by optinAsset.  At the fixture state, the exact-fee claim succeeds while
the same claim overpaid by one microAlgo fails, and likewise for the asset
opt-in payment; neither refunds the excess. -/
theorem c5_counterexample :
    claimDrop env0 77 st0 pay0 1 0 = Except.ok (st1, eff1) ∧
    claimDrop env0 77 st0 ⟨77, 3, 100001⟩ 1 0 = Except.error "payment amount mismatch" ∧
    optinAsset env0 77 st0 ⟨77, 3, 100000⟩ 6 =
      Except.ok ({ st0 with appOptedInAssets := [5, 6], appAssetBalance := [(6, 0), (5, 4000)] },
        ⟨[], [⟨6, 3, 0⟩]⟩) ∧
    optinAsset env0 77 st0 ⟨77, 3, 100001⟩ 6 = Except.error "payment amount mismatch" :=
  ⟨rfl, rfl, rfl, rfl⟩

/-- Claim C5 as amended: only createDrop tolerates overpayment — any payment
at least the required creation cost is accepted and the excess refunded to
the payer — while claimDrop and optinAsset verify the payment equals the
required amount exactly, so a larger payment makes them fail. -/
theorem c5_overpayment_amended :
    (∀ env sender st pay ax cfg st' eff ret,
      createDrop env sender st pay ax cfg = Except.ok (st', eff, ret) →
      getDropCreateCost st ≤ pay.amount ∧
      (getDropCreateCost st < pay.amount →
        Pay.mk pay.sender (pay.amount - getDropCreateCost st) ∈ eff.pays)) ∧
    (∀ env sender st pay id v r,
      claimDrop env sender st pay id v = Except.ok r →
      pay.amount = st.perClaimFeeAmount) ∧
    (∀ env sender st pay a r,
      optinAsset env sender st pay a = Except.ok r →
      pay.amount = ASSET_OPTIN_MBR) := by
  refine ⟨?_, ?_, ?_⟩
  · intro env sender st pay ax cfg st' eff ret h
    obtain ⟨-, -, -, -, -, -, -, -, hcost, -, -, -, -, hrefund, -, -⟩ := createDrop_ok_inv h
    exact ⟨hcost, hrefund⟩
  · intro env sender st pay id v r h
    obtain ⟨st', eff⟩ := r
    obtain ⟨info, -, -, -, -, -, -, -, -, hamt, -⟩ := claimDrop_ok_inv h
    exact hamt
  · intro env sender st pay a r h
    unfold optinAsset at h
    simp only [bindE_ok, exbind_ok, check_eq_ok, exists_and_left] at h
    exact h.2.1

/-- Witness for the amended C5: the fixture creation run overpays by 100
microAlgo and succeeds, with the excess refunded to the payer. -/
theorem c5_witness :
    getDropCreateCost st0 ≤ pay1.amount ∧
    (getDropCreateCost st0 < pay1.amount →
      Pay.mk pay1.sender (pay1.amount - getDropCreateCost st0) ∈ effC.pays) :=
  c5_overpayment_amended.1 envLate 43 st0 pay1 ax1 cfg1 stC effC 2 rfl

/-- Counterexample to claim C6 as stated: claimDrop does re-check the
per-claim fee against twice the per-receipt rent.  In a state whose
per-claim fee is one microAlgo below that bound — a state changeFees refuses
to produce, which is exactly why the claim-time check is otherwise dormant —
claimDrop fails with the fee-too-low error even though every other
precondition holds and the payment matches the configured fee. -/
theorem c6_counterexample :
    claimDrop env0 77 stBadFee payBad 1 0 = Except.error "per-claim fee too low" ∧
    stBadFee.perClaimFeeAmount = 63399 ∧
    getPerClaimerMbrCost * 2 = 63400 :=
  ⟨rfl, rfl, rfl⟩

/-- Claim C6 as amended: the relation between the per-claim fee and twice the
per-receipt rent is enforced at fee-configuration time AND re-checked at
claim time — every state reached by a successful changeFees satisfies it,
and claimDrop itself asserts it again before accepting the payment. -/
theorem c6_fee_floor_amended :
    (∀ env sender st cf pf st',
      changeFees env sender st cf pf = Except.ok st' →
      getPerClaimerMbrCost * 2 ≤ pf) ∧
    (∀ env sender st pay id v r,
      claimDrop env sender st pay id v = Except.ok r →
      getPerClaimerMbrCost * 2 ≤ st.perClaimFeeAmount) := by
  refine ⟨?_, ?_⟩
  · intro env sender st cf pf st' h
    unfold changeFees at h
    simp only [bindE_ok, exbind_ok, check_eq_ok, mulU_ok, Except.ok.injEq,
      exists_and_left] at h
    obtain ⟨-, -, -, -, -, -, d, ⟨hdov, hd⟩, h4, -⟩ := h
    subst hd
    exact h4
  · intro env sender st pay id v r h
    obtain ⟨st', eff⟩ := r
    obtain ⟨info, -, -, -, -, -, hfee, -⟩ := claimDrop_ok_inv h
    exact hfee

/-- Witness for the amended C6: the default fees satisfy the bound and the
fixture claim run is accepted under it. -/
theorem c6_witness : getPerClaimerMbrCost * 2 ≤ st0.perClaimFeeAmount :=
  c6_fee_floor_amended.2 env0 77 st0 pay0 1 0 (st1, eff1) rfl

/-- Counterexample to the final clause of claim C8: rounding down the
maintainer portion never leaves extra base units in the contract beyond the
per-receipt rent.  With the odd per-claim fee 63401 (accepted by changeFees)
the maintainer receives 31700, the fee sink receives 1 — the rounded half
unit goes to the fee sink — and the fee retained in the contract is exactly
the per-receipt rent 31700, zero base units more. -/
theorem c8_counterexample :
    claimDrop env0 77 stOdd payOdd 1 0 = Except.ok (stOddAfter, effOdd) ∧
    effOdd.pays = [⟨8, 31700⟩, ⟨2, 1⟩] ∧
    stOdd.perClaimFeeAmount - 31700 - 1 = getPerClaimerMbrCost + 0 :=
  ⟨rfl, rfl, rfl⟩

/-- Claim C8 as amended: on every successful claim with per-claim fee F and
per-receipt rent M, the maintainer is paid F * 500 / 1000, the fee sink is
paid F - F * 500 / 1000 - M, the three portions sum to exactly F, and the
portion of the fee retained in the contract balance is always exactly M —
rounding the maintainer portion down shifts the odd base unit into the
fee-sink portion, never into the contract. -/
theorem c8_fee_split (env : Env) (sender : Nat) (st : GlobalState) (pay : PayTxn)
    (id v : Nat) (st' : GlobalState) (eff : Effects)
    (h : claimDrop env sender st pay id v = Except.ok (st', eff)) :
    Pay.mk st.maintainerAddress (st.perClaimFeeAmount * 500 / 1000) ∈ eff.pays ∧
    Pay.mk env.feeSink
      (st.perClaimFeeAmount - st.perClaimFeeAmount * 500 / 1000 - getPerClaimerMbrCost) ∈
      eff.pays ∧
    st.perClaimFeeAmount * 500 / 1000 +
      (st.perClaimFeeAmount - st.perClaimFeeAmount * 500 / 1000 - getPerClaimerMbrCost) +
      getPerClaimerMbrCost = st.perClaimFeeAmount ∧
    st.perClaimFeeAmount - st.perClaimFeeAmount * 500 / 1000 -
      (st.perClaimFeeAmount - st.perClaimFeeAmount * 500 / 1000 - getPerClaimerMbrCost) =
      getPerClaimerMbrCost := by
  obtain ⟨info, -, -, -, -, -, hfee, -, -, -, hpays, -⟩ := claimDrop_ok_inv h
  refine ⟨?_, ?_, ?_, ?_⟩
  · rw [hpays]
    simp
  · rw [hpays]
    simp
  · omega
  · omega

/-- Witness for the amended C8 at the fixture claim: fee 100000 splits into
50000 to the maintainer, 18300 to the fee sink, and the retained 31700. -/
theorem c8_witness :
    Pay.mk st0.maintainerAddress (st0.perClaimFeeAmount * 500 / 1000) ∈ eff1.pays ∧
    Pay.mk env0.feeSink
      (st0.perClaimFeeAmount - st0.perClaimFeeAmount * 500 / 1000 - getPerClaimerMbrCost) ∈
      eff1.pays ∧
    st0.perClaimFeeAmount * 500 / 1000 +
      (st0.perClaimFeeAmount - st0.perClaimFeeAmount * 500 / 1000 - getPerClaimerMbrCost) +
      getPerClaimerMbrCost = st0.perClaimFeeAmount ∧
    st0.perClaimFeeAmount - st0.perClaimFeeAmount * 500 / 1000 -
      (st0.perClaimFeeAmount - st0.perClaimFeeAmount * 500 / 1000 - getPerClaimerMbrCost) =
      getPerClaimerMbrCost :=
  c8_fee_split env0 77 st0 pay0 1 0 st1 eff1 rfl

/-- Claim C7: teardown behaviour.  A caller other than the recorded creator
cannot clean up a drop that is neither expired nor empty; any successful
cleanup was authorized (creator, or expired-or-empty), sends the entire
remaining amount of the token to the recorded creator, deletes both the drop
record and the token-index entry, and pays exactly the freed minimum balance
to the recorded creator; and the creator can always tear the drop down. -/
theorem c7_teardown :
    (∀ env sender st id info, alookup st.allDrops id = some info →
      sender ≠ info.DropCreator →
      isDropExpiredOrEmpty env info = false →
      ∀ r, cleanupDrop env sender st ⟨[], []⟩ id ≠ Except.ok r) ∧
    (∀ env sender st id info st' eff, alookup st.allDrops id = some info →
      info.DropId = id →
      cleanupDrop env sender st ⟨[], []⟩ id = Except.ok (st', eff) →
      (sender = info.DropCreator ∨ isDropExpiredOrEmpty env info = true) ∧
      alookup st'.allDrops id = none ∧
      alookup st'.dropForToken info.Config.Token = none ∧
      (0 < info.AmountRemaining →
        Axfer.mk info.Config.Token info.DropCreator info.AmountRemaining ∈ eff.axfers) ∧
      eff.pays = [⟨info.DropCreator, minBalance st - minBalance st'⟩]) ∧
    (∀ env sender st id info, alookup st.allDrops id = some info →
      info.DropId = id →
      sender = info.DropCreator →
      info.AmountRemaining ≤ (alookup st.appAssetBalance info.Config.Token).getD 0 →
      env.accountOptedIn info.DropCreator info.Config.Token = true →
      info.NumClaims + 1 < U64LIMIT →
      ∃ r, cleanupDrop env sender st ⟨[], []⟩ id = Except.ok r) := by
  refine ⟨?_, ?_, ?_⟩
  · intro env sender st id info hl hs hexp r hok
    obtain ⟨st', eff⟩ := r
    unfold cleanupDrop at hok
    simp only [hl, if_pos hs] at hok
    simp only [bindE_ok, exbind_ok, check_eq_ok] at hok
    obtain ⟨u, hexp2, -⟩ := hok
    rw [hexp] at hexp2
    cases hexp2
  · intro env sender st id info st' eff hl hkey h
    obtain ⟨hauth, hAD, hDFT, -, -, -, -, -, -, -, -, hpays, hax⟩ :=
      cleanupDrop_ok_inv hl hkey h
    refine ⟨hauth, ?_, ?_, hax, ?_⟩
    · rw [hAD, alookup_aerase, if_pos rfl]
    · rw [hDFT, alookup_aerase, if_pos rfl]
    · rw [hpays]
      simp
  · intro env sender st id info hl hkey hs hbal hopt hnum
    exact cleanupDrop_exists hl hkey (Or.inl hs) hbal hopt hnum

/-- Witness for C7 at concrete inputs: creator 42 cancels the live fixture
drop; both registry entries are gone, the 4000 remaining units go back to 42
and the whole freed minimum balance of 180600 microAlgo is paid to 42. -/
theorem c7_witness :
    (42 = drop0.DropCreator ∨ isDropExpiredOrEmpty env0 drop0 = true) ∧
    alookup stCl.allDrops 1 = none ∧
    alookup stCl.dropForToken drop0.Config.Token = none ∧
    (0 < drop0.AmountRemaining →
      Axfer.mk drop0.Config.Token drop0.DropCreator drop0.AmountRemaining ∈ effCl.axfers) ∧
    effCl.pays = [⟨drop0.DropCreator, minBalance st0 - minBalance stCl⟩] :=
  c7_teardown.2.1 env0 42 st0 1 drop0 stCl effCl rfl rfl rfl

/-- Claim C2: at most one drop is indexed per token.  Creating a drop for a
token whose currently indexed drop is neither expired nor empty fails with no
state change; when the indexed drop is expired-or-empty, creation first tears
it down — refunding the old creator the remaining tokens and the freed rent —
and only then installs the new drop as the sole index entry for the token. -/
theorem c2_one_drop_per_token :
    (∀ env sender st pay ax cfg oldId oldInfo,
      alookup st.dropForToken cfg.Token = some oldId →
      alookup st.allDrops oldId = some oldInfo →
      isDropExpiredOrEmpty env oldInfo = false →
      ∀ r, createDrop env sender st pay ax cfg ≠ Except.ok r) ∧
    (∀ env sender st pay ax cfg oldId oldInfo st' eff ret,
      alookup st.dropForToken cfg.Token = some oldId →
      alookup st.allDrops oldId = some oldInfo →
      oldInfo.DropId = oldId →
      oldId ≤ st.lastDropId →
      createDrop env sender st pay ax cfg = Except.ok (st', eff, ret) →
      isDropExpiredOrEmpty env oldInfo = true ∧
      ret = st.lastDropId + 1 ∧
      alookup st'.allDrops oldId = none ∧
      alookup st'.dropForToken cfg.Token = some ret ∧
      (0 < oldInfo.AmountRemaining →
        Axfer.mk oldInfo.Config.Token oldInfo.DropCreator oldInfo.AmountRemaining ∈ eff.axfers) ∧
      (∃ amt, Pay.mk oldInfo.DropCreator amt ∈ eff.pays)) := by
  refine ⟨?_, ?_⟩
  · intro env sender st pay ax cfg oldId oldInfo hidx hold hexp r hok
    obtain ⟨st', eff, ret⟩ := r
    obtain ⟨oldInfo2, hold2, hexp2⟩ := createDrop_supersede_old hidx hok
    rw [hold] at hold2
    injection hold2 with he
    rw [← he, hexp] at hexp2
    cases hexp2
  · intro env sender st pay ax cfg oldId oldInfo st' eff ret hidx hold hkey hle h
    obtain ⟨-, -, -, -, -, -, -, -, -, hret, -, -, hdft, -, -, -⟩ := createDrop_ok_inv h
    obtain ⟨hexp, hAD, hax, hpay⟩ := createDrop_supersede_inv hidx hold hkey h
    refine ⟨hexp, hret, ?_, hdft, hax, hpay⟩
    rw [hAD, alookup_ainsert, if_neg (by omega), alookup_aerase, if_pos rfl]

/-- Witness for C2 at concrete inputs: past expiry of drop 1, creating a new
drop for token 5 succeeds, removes drop 1, indexes the token to the new drop
2, refunds the 4000 remaining units to the old creator 42 and pays 42 the
freed rent. -/
theorem c2_witness :
    isDropExpiredOrEmpty envLate drop0 = true ∧
    2 = st0.lastDropId + 1 ∧
    alookup stC.allDrops 1 = none ∧
    alookup stC.dropForToken cfg1.Token = some 2 ∧
    (0 < drop0.AmountRemaining →
      Axfer.mk drop0.Config.Token drop0.DropCreator drop0.AmountRemaining ∈ effC.axfers) ∧
    (∃ amt, Pay.mk drop0.DropCreator amt ∈ effC.pays) :=
  c2_one_drop_per_token.2 envLate 43 st0 pay1 ax1 cfg1 1 drop0 stC effC 2 rfl rfl rfl
    (by decide) rfl

/-- Claim C1: the drop accounting invariant — AmountRemaining equals
(MaxClaims - NumClaims) * AmountPerClaim for every drop in the registry.  It
is established by createDrop, which for an accepted funding amount divisible
by the per-claim amount stores MaxClaims = amount / perClaim, NumClaims = 0
and AmountRemaining = amount, and it is preserved by every successful
claimDrop, which decreases AmountRemaining by AmountPerClaim and increments
NumClaims, both under the structural invariant that records sit under their
own drop id. -/
theorem c1_drop_accounting :
    (∀ env sender st pay ax cfg st' eff ret,
      WellKeyed st → allDropsAccounting st →
      createDrop env sender st pay ax cfg = Except.ok (st', eff, ret) →
      allDropsAccounting st' ∧
      alookup st'.allDrops ret =
        some ⟨ret, ax.sender, ax.assetAmount, ax.assetAmount / cfg.AmountPerClaim, 0, cfg⟩ ∧
      ax.assetAmount % cfg.AmountPerClaim = 0 ∧
      cfg.AmountPerClaim ≠ 0) ∧
    (∀ env sender st pay id v st' eff,
      WellKeyed st → allDropsAccounting st →
      claimDrop env sender st pay id v = Except.ok (st', eff) →
      allDropsAccounting st' ∧
      ∃ d d', alookup st.allDrops id = some d ∧ alookup st'.allDrops id = some d' ∧
        d'.AmountRemaining = d.AmountRemaining - d.Config.AmountPerClaim ∧
        d'.NumClaims = d.NumClaims + 1 ∧
        d'.MaxClaims = d.MaxClaims ∧
        d'.Config = d.Config) := by
  have hndacc : ∀ (ret : Nat) (ax : AssetTransferTxn) (cfg : TokenDropConfig),
      ax.assetAmount % cfg.AmountPerClaim = 0 →
      dropAccounting ⟨ret, ax.sender, ax.assetAmount, ax.assetAmount / cfg.AmountPerClaim, 0, cfg⟩ := by
    intro ret ax cfg hdvd
    unfold dropAccounting
    simp only [Nat.sub_zero]
    exact (Nat.div_mul_cancel (Nat.dvd_of_mod_eq_zero hdvd)).symm
  refine ⟨?_, ?_⟩
  · intro env sender st pay ax cfg st' eff ret hwk hacc h
    obtain ⟨-, -, -, hAPCne, hm10, -, -, -, -, -, -, hlook, -, -, -, -⟩ := createDrop_ok_inv h
    refine ⟨?_, hlook, hm10, hAPCne⟩
    cases hidx : alookup st.dropForToken cfg.Token with
    | none =>
      have hAD := createDrop_fresh_allDrops hidx h
      intro p hp
      rw [hAD] at hp
      rcases mem_ainsert.mp hp with hnew | ⟨hmem, -⟩
      · subst hnew
        exact hndacc ret ax cfg hm10
      · exact hacc p hmem
    | some oldId =>
      obtain ⟨oldInfo, hold, -⟩ := createDrop_supersede_old hidx h
      have hkey := hwk (oldId, oldInfo) (alookup_mem hold)
      obtain ⟨-, hAD, -, -⟩ := createDrop_supersede_inv hidx hold hkey h
      intro p hp
      rw [hAD] at hp
      rcases mem_ainsert.mp hp with hnew | ⟨hmem, -⟩
      · subst hnew
        exact hndacc ret ax cfg hm10
      · exact hacc p (mem_aerase.mp hmem).1
  · intro env sender st pay id v st' eff hwk hacc h
    obtain ⟨info, hl, -, hexp, -, -, -, -, -, -, -, -, -, -, -, -, -, -, hrle,
      cur, hcur, hAD⟩ := claimDrop_ok_inv h
    have hkey := hwk (id, info) (alookup_mem hl)
    simp only at hkey
    rw [hkey, hl] at hcur
    injection hcur with hcureq
    have hmem0 := alookup_mem hl
    have haccinfo := hacc (id, info) hmem0
    unfold dropAccounting at haccinfo
    simp only at haccinfo
    have hrem0 : info.AmountRemaining ≠ 0 := by
      unfold isDropExpiredOrEmpty at hexp
      simp only [Bool.or_eq_false_iff, beq_eq_false_iff_ne, ne_eq] at hexp
      exact hexp.1
    have hk1 : 1 ≤ info.MaxClaims - info.NumClaims := by
      rcases Nat.eq_zero_or_pos (info.MaxClaims - info.NumClaims) with hz | hpos
      · rw [hz, Nat.zero_mul] at haccinfo
        exact absurd haccinfo hrem0
      · exact hpos
    have hupd : dropAccounting { info with
        AmountRemaining := info.AmountRemaining - info.Config.AmountPerClaim,
        NumClaims := info.NumClaims + 1 } := by
      unfold dropAccounting
      simp only
      rw [haccinfo]
      have hsplit : info.MaxClaims - info.NumClaims =
          (info.MaxClaims - (info.NumClaims + 1)) + 1 := by omega
      rw [hsplit, Nat.succ_mul, Nat.add_sub_cancel]
    subst hcureq
    refine ⟨?_, info, { info with AmountRemaining := info.AmountRemaining - info.Config.AmountPerClaim, NumClaims := info.NumClaims + 1 }, hl, ?_, rfl, rfl, rfl, rfl⟩
    · intro p hp
      rw [hAD] at hp
      rcases mem_ainsert.mp hp with hnew | ⟨hmem, -⟩
      · subst hnew
        exact hupd
      · exact hacc p hmem
    · rw [hAD, hkey, alookup_ainsert, if_pos rfl]

/-- Witness for C1 at the fixture claim: both structural hypotheses hold for
the fixture state by computation and the invariant still holds after the
claim, with remaining 3000 = (4 - 1) * 1000. -/
theorem c1_witness :
    allDropsAccounting st1 ∧
    ∃ d d', alookup st0.allDrops 1 = some d ∧ alookup st1.allDrops 1 = some d' ∧
      d'.AmountRemaining = d.AmountRemaining - d.Config.AmountPerClaim ∧
      d'.NumClaims = d.NumClaims + 1 ∧
      d'.MaxClaims = d.MaxClaims ∧
      d'.Config = d.Config :=
  c1_drop_accounting.2 env0 77 st0 pay0 1 0 st1 eff1
    (by unfold WellKeyed; decide) (by unfold allDropsAccounting dropAccounting; decide) rfl
